import Mathlib

/-!
# Verification of the go-mitmproxy forward-proxy core

Shallow embedding of `src/proxy/proxy.go` (`Proxy.ServeHTTP`,
`Proxy.handleConnect`, `Proxy.getUpstreamProxyUrl` and the `reply`
closure).  Bodies and readers are modelled as `List Nat` byte lists;
the observable behaviour of a request is a trace of `Event`s.
Addon callbacks are parameters: each hook either returns an updated
flow or panics.
-/

namespace Mitm

/-- A parsed URL: only the fields the proxy core inspects
(`URL.Scheme`, `URL.Host`; the rest of the URL is opaque). -/
structure URL where
  scheme : String
  host : String
  rest : String
deriving DecidableEq, Repr

/-- Modelled from the spec (the `Request` type lives outside `src/`):
method, URL, headers and the optional buffered body of a request,
as described in the spec's data model for `Flow.request`. -/
structure Request where
  method : String
  url : URL
  header : List (String × List String)
  body : Option (List Nat)
deriving DecidableEq, Repr

/-- The `Response` short-circuit container, with the fields
`Proxy.ServeHTTP` reads and writes: `StatusCode`, `Header`, `close`,
`Body` (buffered bytes) and `BodyReader` (a stream). -/
structure Response where
  statusCode : Nat
  header : Option (List (String × List String))
  close : Bool
  body : Option (List Nat)
  bodyReader : Option (List Nat)
deriving DecidableEq, Repr

/-- Modelled from the spec (the `Flow` type lives outside `src/`):
request, optional response, the sticky `stream` flag and
`useSeparateClient`, per the spec's data model for `Flow`. -/
structure Flow where
  request : Request
  response : Option Response
  stream : Bool
  useSeparateClient : Bool
deriving DecidableEq, Repr

/-- Modelled from the spec: `newRequest` (outside `src/`) copies the
inbound request's method, URL and headers into the flow; the body is
buffered later, so it starts empty. -/
def newRequest (req : Request) : Request :=
  { method := req.method, url := req.url, header := req.header, body := none }

/-- Modelled from the spec: `newFlow` (outside `src/`) creates a fresh
flow: no response yet, `stream` and `useSeparateClient` cleared. -/
def newFlow (req : Request) : Flow :=
  { request := newRequest req, response := none, stream := false, useSeparateClient := false }

/-- Result of one addon callback: an updated flow, or a Go panic. -/
inductive HookRes (α : Type)
  | ok (a : α)
  | hookPanic (msg : String)

/-- True exactly on the panic outcome. -/
def HookRes.isPanic {α : Type} : HookRes α → Bool
  | .ok _ => false
  | .hookPanic _ => true

/-- One addon: the hook points of the `Addon` interface used by
`Proxy.ServeHTTP` / `Proxy.handleConnect`.  Flow hooks may mutate the
flow or panic; stream modifiers receive the flow (a pointer in Go,
hence they may also mutate it) and the current body reader and return
the replacement reader. -/
structure Addon where
  requestheaders : Flow → HookRes Flow
  request : Flow → HookRes Flow
  responseheaders : Flow → HookRes Flow
  response : Flow → HookRes Flow
  streamRequestModifier : Flow → Option (List Nat) → Flow × Option (List Nat)
  streamResponseModifier : Flow → Option (List Nat) → Flow × Option (List Nat)
  accessProxyServer : Unit → HookRes Unit

/-- Observable events of one `ServeHTTP` invocation.  Hook events
record the flow state passed to the addon. -/
inductive Event
  | reqHeadersHook (i : Nat) (f : Flow)
  | requestHook (i : Nat) (f : Flow)
  | streamReqMod (i : Nat)
  | respHeadersHook (i : Nat) (f : Flow)
  | responseHook (i : Nat) (f : Flow)
  | streamRespMod (i : Nat)
  | accessProxy (i : Nat)
  | copyHeaders (h : List (String × List String))
  | addHeader (k : String) (v : String)
  | writeStatus (n : Nat)
  | writeString (s : String)
  | writeChunk (bs : List Nat)
  | dialOrigin (separate : Bool) (f : Flow)
  | dialConnect (intercept : Bool)
  | transfer
  | finishFlow
  | recovered
deriving DecidableEq, Repr

/-- How a `ServeHTTP` call ends: normal return, or a panic escaping
the handler. -/
inductive Outcome
  | normal
  | panicked
deriving DecidableEq, Repr

/-- Environment of one forward-pipeline run: the inbound request body
stream, the origin's answer (`none` = `client.Do` error), and the
error switches of the fallible steps. -/
structure OriginResp where
  statusCode : Nat
  header : List (String × List String)
  close : Bool
  bodyContent : List Nat
deriving DecidableEq, Repr

structure Env where
  reqBodyContent : List Nat
  reqBodyReadErr : Bool
  newRequestErr : Bool
  originResponse : Option OriginResp
  resBodyReadErr : Bool
deriving DecidableEq, Repr

/-- Environment of one CONNECT run: the intercept decision
(`shouldIntercept == nil || shouldIntercept(req)`) and the error
switches of dial, hijack and the 200-established write. -/
structure ConnectEnv where
  intercept : Bool
  dialErr : Bool
  hijackErr : Bool
  writeEstablishedErr : Bool
deriving DecidableEq, Repr

/-- Modelled from the spec: `readerToBuffer` (outside `src/`) reads at
most `limit` bytes; a body reaching the threshold is left unbuffered
(`none`, the reader keeps the full content), per the spec's
buffered-vs-streaming policy and the `"body size >= %v"` log lines in
`Proxy.ServeHTTP`.  `readErr` switches its I/O-error outcome. -/
def readerToBuffer (content : List Nat) (limit : Nat) (readErr : Bool) :
    Except Unit (Option (List Nat)) :=
  if readErr then Except.error ()
  else if limit ≤ content.length then Except.ok none
  else Except.ok (some content)

/-- The `reply` closure of `Proxy.ServeHTTP`: copy headers, add
`Connection: close` when requested, write the status, then write the
three possible body sources in source order — the `body` argument,
then `response.BodyReader`, then the buffered `response.Body` (only
when non-empty). -/
def reply (response : Response) (body : Option (List Nat)) : List Event :=
  (match response.header with
    | none => []
    | some hs => [Event.copyHeaders hs])
  ++ (if response.close then [Event.addHeader "Connection" "close"] else [])
  ++ [Event.writeStatus response.statusCode]
  ++ (match body with
    | none => []
    | some bs => [Event.writeChunk bs])
  ++ (match response.bodyReader with
    | none => []
    | some bs => [Event.writeChunk bs])
  ++ (match response.body with
    | none => []
    | some bs => if 0 < bs.length then [Event.writeChunk bs] else [])

/-- Reply on an optional response (the flow's `response` field). -/
def replyOpt (r : Option Response) (body : Option (List Nat)) : List Event :=
  match r with
  | none => []
  | some response => reply response body

/-- Result of a hook loop over the addon list. -/
inductive LoopRes
  | panicked
  | stopped (f : Flow)
  | done (f : Flow)

/-- An addon hook loop of `Proxy.ServeHTTP`: call `hk` on each addon in
registration order, recording an `ev` event with the flow each addon
sees; stop early when `stop` holds after a call (the short-circuit
checks), or when a hook panics. -/
def hookLoop (hk : Addon → Flow → HookRes Flow) (ev : Nat → Flow → Event)
    (stop : Flow → Bool) : List Addon → Nat → Flow → List Event × LoopRes
  | [], _, f => ([], LoopRes.done f)
  | a :: rest, i, f =>
    match hk a f with
    | HookRes.hookPanic _ => ([ev i f], LoopRes.panicked)
    | HookRes.ok f' =>
      if stop f' then ([ev i f], LoopRes.stopped f')
      else
        let r := hookLoop hk ev stop rest (i + 1) f'
        (ev i f :: r.1, r.2)

/-- A stream-modifier loop of `Proxy.ServeHTTP`: thread the flow and
the body reader through each addon's modifier in registration order. -/
def modLoop (md : Addon → Flow → Option (List Nat) → Flow × Option (List Nat))
    (ev : Nat → Event) :
    List Addon → Nat → Flow → Option (List Nat) → List Event × Flow × Option (List Nat)
  | [], _, f, b => ([], f, b)
  | a :: rest, i, f, b =>
    let fb := md a f b
    let r := modLoop md ev rest (i + 1) fb.1 fb.2
    (ev i :: r.1, r.2)

/-- Result of one pipeline stage: an early return (`halt`, with the
stage's events and whether a panic is propagating), or the events plus
the value handed to the next stage. -/
inductive PipeRes (α : Type)
  | halt (evs : List Event) (panicked : Bool)
  | next (evs : List Event) (a : α)

/-- The events a stage emitted, in either outcome. -/
def PipeRes.events {α : Type} : PipeRes α → List Event
  | .halt evs _ => evs
  | .next evs _ => evs

/-- Stage 1 of the forward pipeline (`Requestheaders` loop): any addon
setting `flow.Response` short-circuits, and the response is replied
with a nil body reader. -/
def stageReqHeaders (addons : List Addon) (f0 : Flow) : PipeRes Flow :=
  match hookLoop (fun a => a.requestheaders) Event.reqHeadersHook
      (fun f => f.response.isSome) addons 0 f0 with
  | (evs, LoopRes.panicked) => PipeRes.halt evs true
  | (evs, LoopRes.stopped f) => PipeRes.halt (evs ++ replyOpt f.response none) false
  | (evs, LoopRes.done f) => PipeRes.next evs f

/-- The flow with the buffered request body installed. -/
def withReqBody (f : Flow) (buf : List Nat) : Flow :=
  { f with request := { f.request with body := some buf } }

/-- The flow with the buffered response body installed on its
response (a no-op when the response was unset). -/
def withRespBody (f : Flow) (buf : List Nat) : Flow :=
  { f with response := f.response.map (fun r => { r with body := some buf }) }

/-- The `Response` built from the origin's status, headers and
`Close` flag. -/
def responseFromOrigin (o : OriginResp) : Response :=
  { statusCode := o.statusCode, header := some o.header, close := o.close,
    body := none, bodyReader := none }

/-- Stage 2 (read request body): when the flow is not streaming,
buffer up to the threshold; an I/O error writes 502; threshold
overflow sets `stream` and keeps the raw reader; a buffered body is
stored on the flow and the `Request` hook loop runs (with the same
short-circuit), after which the outbound body reader is rebuilt from
the possibly-edited buffered body. -/
def stageReqBody (threshold : Nat) (addons : List Addon) (env : Env) (f1 : Flow) :
    PipeRes (Flow × Option (List Nat)) :=
  if f1.stream then PipeRes.next [] (f1, some env.reqBodyContent)
  else
    match readerToBuffer env.reqBodyContent threshold env.reqBodyReadErr with
    | Except.error _ => PipeRes.halt [Event.writeStatus 502] false
    | Except.ok none =>
      PipeRes.next [] ({ f1 with stream := true }, some env.reqBodyContent)
    | Except.ok (some buf) =>
      match hookLoop (fun a => a.request) Event.requestHook
          (fun f => f.response.isSome) addons 0 (withReqBody f1 buf) with
      | (evs, LoopRes.panicked) => PipeRes.halt evs true
      | (evs, LoopRes.stopped f) => PipeRes.halt (evs ++ replyOpt f.response none) false
      | (evs, LoopRes.done f3) => PipeRes.next evs (f3, some (f3.request.body.getD []))

/-- Stage 4 (build and send the outbound request):
`http.NewRequestWithContext` failure writes 502; the client is the
separate pooled one iff `flow.UseSeparateClient` is set or the URL
host/scheme differs from the values captured before the
`Requestheaders` loop; a `Do` error writes 502; on success
`flow.Response` is built from the origin status, headers and `Close`
flag. -/
def stageSend (rawScheme rawHost : String) (env : Env) (f : Flow) :
    PipeRes (Flow × OriginResp) :=
  if env.newRequestErr then PipeRes.halt [Event.writeStatus 502] false
  else
    let sep := f.useSeparateClient || (rawHost != f.request.url.host)
      || (rawScheme != f.request.url.scheme)
    match env.originResponse with
    | none => PipeRes.halt [Event.dialOrigin sep f, Event.writeStatus 502] false
    | some o =>
      PipeRes.next [Event.dialOrigin sep f]
        ({ f with response := some (responseFromOrigin o) }, o)

/-- Stage 5 (`Responseheaders` loop): an addon populating
`flow.Response.Body` short-circuits, and the response is replied with
a nil body reader. -/
def stageRespHeaders (addons : List Addon) (f : Flow) : PipeRes Flow :=
  match hookLoop (fun a => a.responseheaders) Event.respHeadersHook
      (fun g => (g.response.bind Response.body).isSome) addons 0 f with
  | (evs, LoopRes.panicked) => PipeRes.halt evs true
  | (evs, LoopRes.stopped f') => PipeRes.halt (evs ++ replyOpt f'.response none) false
  | (evs, LoopRes.done f') => PipeRes.next evs f'

/-- Stage 6 (read response body): skipped entirely when the flow is
already streaming (the reader is the raw origin body); otherwise an
I/O error writes 502, overflow sets `stream` and keeps the reader, and
a buffered body is stored on `flow.Response.Body` (the reader becomes
nil) before the `Response` hook loop runs with no short-circuit
check. -/
def stageRespBody (threshold : Nat) (addons : List Addon) (env : Env)
    (o : OriginResp) (f : Flow) : PipeRes (Flow × Option (List Nat)) :=
  if f.stream then PipeRes.next [] (f, some o.bodyContent)
  else
    match readerToBuffer o.bodyContent threshold env.resBodyReadErr with
    | Except.error _ => PipeRes.halt [Event.writeStatus 502] false
    | Except.ok none =>
      PipeRes.next [] ({ f with stream := true }, some o.bodyContent)
    | Except.ok (some buf) =>
      match hookLoop (fun a => a.response) Event.responseHook
          (fun _ => false) addons 0 (withRespBody f buf) with
      | (evs, LoopRes.panicked) => PipeRes.halt evs true
      | (evs, LoopRes.stopped f3) => PipeRes.next evs (f3, none)
      | (evs, LoopRes.done f3) => PipeRes.next evs (f3, none)

/-- The forward pipeline of `Proxy.ServeHTTP` (everything after the
CONNECT and proxy-self branches), without the trailing deferred
`flow.finish` — the boolean reports a propagating addon panic, to be
recovered by the caller's deferred `recover`. -/
def forwardPipeline (threshold : Nat) (addons : List Addon) (req : Request) (env : Env) :
    List Event × Bool :=
  let f0 := newFlow req
  match stageReqHeaders addons f0 with
  | PipeRes.halt evs p => (evs, p)
  | PipeRes.next e1 f1 =>
    match stageReqBody threshold addons env f1 with
    | PipeRes.halt evs p => (e1 ++ evs, p)
    | PipeRes.next e2 fb =>
      let m := modLoop (fun a => a.streamRequestModifier) Event.streamReqMod addons 0 fb.1 fb.2
      match stageSend req.url.scheme req.url.host env m.2.1 with
      | PipeRes.halt evs p => (e1 ++ e2 ++ m.1 ++ evs, p)
      | PipeRes.next e4 fo =>
        match stageRespHeaders addons fo.1 with
        | PipeRes.halt evs p => (e1 ++ e2 ++ m.1 ++ e4 ++ evs, p)
        | PipeRes.next e5 f5 =>
          match stageRespBody threshold addons env fo.2 f5 with
          | PipeRes.halt evs p => (e1 ++ e2 ++ m.1 ++ e4 ++ e5 ++ evs, p)
          | PipeRes.next e6 fb2 =>
            let m2 := modLoop (fun a => a.streamResponseModifier) Event.streamRespMod
              addons 0 fb2.1 fb2.2
            (e1 ++ e2 ++ m.1 ++ e4 ++ e5 ++ e6 ++ m2.1
              ++ replyOpt m2.2.1.response m2.2.2, false)

/-- The synthetic response `handleConnect` installs after the tunnel
is established: status 200 with a fresh empty header map. -/
def connectOKResponse : Response :=
  { statusCode := 200, header := some [], close := false, body := none, bodyReader := none }

/-- The `200 Connection Established` line written to the client. -/
def establishedLine : String := "HTTP/1.1 200 Connection Established\r\n\r\n"

/-- The model of `Proxy.handleConnect`: fire `Requestheaders` (no short-circuit
check), dial the interceptor or the upstream, 502 on dial or hijack
failure, write the established line, overwrite `flow.Response` with
the synthetic 200, fire `Responseheaders`, transfer bytes, then fire
`Response` from a deferred closure.  The deferred `flow.finish` always
runs; there is no `recover` here, so a hook panic propagates (the
boolean result). -/
def handleConnect (addons : List Addon) (req : Request) (cenv : ConnectEnv) :
    List Event × Bool :=
  let f0 := newFlow req
  match hookLoop (fun a => a.requestheaders) Event.reqHeadersHook
      (fun _ => false) addons 0 f0 with
  | (evs, LoopRes.panicked) => (evs ++ [Event.finishFlow], true)
  | (evs, LoopRes.stopped _) => (evs ++ [Event.finishFlow], true)
  | (evs, LoopRes.done f1) =>
    let evs := evs ++ [Event.dialConnect cenv.intercept]
    if cenv.dialErr then (evs ++ [Event.writeStatus 502, Event.finishFlow], false)
    else if cenv.hijackErr then (evs ++ [Event.writeStatus 502, Event.finishFlow], false)
    else
      let evs := evs ++ [Event.writeString establishedLine]
      if cenv.writeEstablishedErr then (evs ++ [Event.finishFlow], false)
      else
        let f2 := { f1 with response := some connectOKResponse }
        match hookLoop (fun a => a.responseheaders) Event.respHeadersHook
            (fun _ => false) addons 0 f2 with
        | (evs2, LoopRes.panicked) => (evs ++ evs2 ++ [Event.finishFlow], true)
        | (evs2, LoopRes.stopped _) => (evs ++ evs2 ++ [Event.finishFlow], true)
        | (evs2, LoopRes.done f3) =>
          match hookLoop (fun a => a.response) Event.responseHook
              (fun _ => false) addons 0 f3 with
          | (evs3, LoopRes.panicked) =>
            (evs ++ evs2 ++ [Event.transfer] ++ evs3 ++ [Event.finishFlow], true)
          | (evs3, LoopRes.stopped _) =>
            (evs ++ evs2 ++ [Event.transfer] ++ evs3 ++ [Event.finishFlow], true)
          | (evs3, LoopRes.done _) =>
            (evs ++ evs2 ++ [Event.transfer] ++ evs3 ++ [Event.finishFlow], false)

/-- The fixed body returned for a relative-URI request when no addon
is registered. -/
def directMsg : String := "此为代理服务器，不能直接发起请求"

/-- The `AccessProxyServer` loop: every addon is invoked; a panic
propagates (this branch runs before the `recover` defer is
installed). -/
def accessLoop : List Addon → Nat → List Event × Outcome
  | [], _ => ([], Outcome.normal)
  | a :: rest, i =>
    match a.accessProxyServer () with
    | HookRes.hookPanic _ => ([Event.accessProxy i], Outcome.panicked)
    | HookRes.ok _ =>
      let r := accessLoop rest (i + 1)
      (Event.accessProxy i :: r.1, r.2)

/-- The model of `Proxy.ServeHTTP`: CONNECT requests go to `handleConnect` (before
the `recover` defer exists, so panics escape); relative-URI requests
are answered 400 directly when no addon is registered, else handed to
every addon's `AccessProxyServer`; all other requests run the forward
pipeline under the deferred `recover` (a panic is logged and the
handler returns normally) and the deferred `flow.finish`. -/
def serveHTTP (threshold : Nat) (addons : List Addon) (req : Request)
    (env : Env) (cenv : ConnectEnv) : List Event × Outcome :=
  if req.method = "CONNECT" then
    let r := handleConnect addons req cenv
    (r.1, if r.2 then Outcome.panicked else Outcome.normal)
  else if req.url.scheme = "" ∨ req.url.host = "" then
    if addons.length = 0 then
      ([Event.writeStatus 400, Event.writeString directMsg], Outcome.normal)
    else accessLoop addons 0
  else
    let r := forwardPipeline threshold addons req env
    if r.2 then (r.1 ++ [Event.finishFlow, Event.recovered], Outcome.normal)
    else (r.1 ++ [Event.finishFlow], Outcome.normal)

/-- The model of `Proxy.getUpstreamProxyUrl`: the per-request callback wins when
set; else a non-empty static `Opts.Upstream` is parsed; else
`http.ProxyFromEnvironment` is consulted for a synthetic request with
scheme `https` and the request's host (`none` = direct). -/
def getUpstreamProxyUrl
    (upstreamProxyFn : Option (String → Except String (Option URL)))
    (optsUpstream : String)
    (parse : String → Except String (Option URL))
    (proxyFromEnv : URL → Except String (Option URL))
    (reqHost : String) : Except String (Option URL) :=
  match upstreamProxyFn with
  | some fn => fn reqHost
  | none =>
    if 0 < optsUpstream.length then parse optsUpstream
    else proxyFromEnv { scheme := "https", host := reqHost, rest := "" }

/-! ## Classifiers, invariant predicates and concrete instances -/

/-- The constructor kind of an event. -/
inductive EKind
  | reqHeadersHook
  | requestHook
  | streamReqMod
  | respHeadersHook
  | responseHook
  | streamRespMod
  | accessProxy
  | copyHeaders
  | addHeader
  | writeStatus
  | writeString
  | writeChunk
  | dialOrigin
  | dialConnect
  | transferK
  | finishFlow
  | recovered
deriving DecidableEq, Repr

/-- Kind of an event. -/
def Event.kind : Event → EKind
  | .reqHeadersHook _ _ => EKind.reqHeadersHook
  | .requestHook _ _ => EKind.requestHook
  | .streamReqMod _ => EKind.streamReqMod
  | .respHeadersHook _ _ => EKind.respHeadersHook
  | .responseHook _ _ => EKind.responseHook
  | .streamRespMod _ => EKind.streamRespMod
  | .accessProxy _ => EKind.accessProxy
  | .copyHeaders _ => EKind.copyHeaders
  | .addHeader _ _ => EKind.addHeader
  | .writeStatus _ => EKind.writeStatus
  | .writeString _ => EKind.writeString
  | .writeChunk _ => EKind.writeChunk
  | .dialOrigin _ _ => EKind.dialOrigin
  | .dialConnect _ => EKind.dialConnect
  | .transfer => EKind.transferK
  | .finishFlow => EKind.finishFlow
  | .recovered => EKind.recovered

/-- Whether some event of kind `k` occurs in a trace. -/
def kindAny (k : EKind) (evs : List Event) : Bool :=
  evs.any (fun e => e.kind == k)

/-- The kinds `reply` can emit. -/
def replyKinds : List EKind :=
  [EKind.copyHeaders, EKind.addHeader, EKind.writeStatus, EKind.writeChunk]

/-- The flow snapshot recorded by a hook or dial event, if any. -/
def Event.snapFlow : Event → Option Flow
  | .reqHeadersHook _ f => some f
  | .requestHook _ f => some f
  | .respHeadersHook _ f => some f
  | .responseHook _ f => some f
  | .dialOrigin _ f => some f
  | _ => none

/-- The `stream` flags of the flow snapshots of a trace, in order. -/
def streamSnaps (evs : List Event) : List Bool :=
  evs.filterMap (fun e => e.snapFlow.map Flow.stream)

/-- The trace segment `evs` runs from a flow with `stream = a` to one
with `stream = b`: `stream` may only go from `false` to `true` inside
it, and every snapshot lies between `a` and `b`. -/
def spanOK (a : Bool) (evs : List Event) (b : Bool) : Prop :=
  List.Pairwise (fun x y : Bool => x ≤ y) (streamSnaps evs) ∧
    (∀ s ∈ streamSnaps evs, a ≤ s ∧ s ≤ b) ∧ a ≤ b

/-- A flow hook that never turns `stream` back off. -/
def hookMono (hk : Flow → HookRes Flow) : Prop :=
  ∀ f f', hk f = HookRes.ok f' → f.stream ≤ f'.stream

/-- A stream modifier that never turns `stream` back off. -/
def modMono (md : Flow → Option (List Nat) → Flow × Option (List Nat)) : Prop :=
  ∀ f b, f.stream ≤ (md f b).1.stream

/-- An addon none of whose callbacks turns `stream` back off. -/
def addonStreamMono (a : Addon) : Prop :=
  hookMono a.requestheaders ∧ hookMono a.request ∧ hookMono a.responseheaders ∧
    hookMono a.response ∧ modMono a.streamRequestModifier ∧ modMono a.streamResponseModifier

/-- Upper bound on `stream` after a hook loop: the resulting flow's
flag, or `true` when the loop panicked. -/
def LoopRes.outStream : LoopRes → Bool
  | .done g => g.stream
  | .stopped g => g.stream
  | .panicked => true

/-- The body chunks written to the client, in order. -/
def bodyChunks (evs : List Event) : List (List Nat) :=
  evs.filterMap (fun e => match e with | Event.writeChunk bs => some bs | _ => none)

/-- The chunk list of an optional reader. -/
def optChunk : Option (List Nat) → List (List Nat)
  | none => []
  | some bs => [bs]

/-- The chunk list of the buffered `Body` field (written only when
non-empty). -/
def bufferedChunk : Option (List Nat) → List (List Nat)
  | none => []
  | some bs => if 0 < bs.length then [bs] else []

/-! ### Concrete instances used in witnesses and counterexamples -/

/-- An addon with every callback a no-op (like `BaseAddon`). -/
def noopAddon : Addon :=
  { requestheaders := fun f => HookRes.ok f
    request := fun f => HookRes.ok f
    responseheaders := fun f => HookRes.ok f
    response := fun f => HookRes.ok f
    streamRequestModifier := fun f b => (f, b)
    streamResponseModifier := fun f b => (f, b)
    accessProxyServer := fun _ => HookRes.ok () }

/-- An addon that panics in `Requestheaders`. -/
def panicAddon : Addon :=
  { noopAddon with requestheaders := fun _ => HookRes.hookPanic "boom" }

/-- The response installed by `scAddon`. -/
def teapotResponse : Response :=
  { statusCode := 418, header := some [], close := false, body := some [7], bodyReader := none }

/-- An addon that short-circuits in `Requestheaders` with a 418. -/
def scAddon : Addon :=
  { noopAddon with requestheaders := fun f => HookRes.ok { f with response := some teapotResponse } }

/-- A plain absolute-URI GET request. -/
def creq : Request :=
  { method := "GET", url := { scheme := "http", host := "h", rest := "/" }, header := [], body := none }

/-- A CONNECT request. -/
def screq : Request := { creq with method := "CONNECT" }

/-- A relative-URI request (no scheme, no host). -/
def relreq : Request :=
  { method := "GET", url := { scheme := "", host := "", rest := "/x" }, header := [], body := none }

/-- A CONNECT environment with no failures, intercepting. -/
def cenv0 : ConnectEnv :=
  { intercept := true, dialErr := false, hijackErr := false, writeEstablishedErr := false }

/-- A 200 origin response with empty body. -/
def origin1 : OriginResp :=
  { statusCode := 200, header := [], close := false, bodyContent := [] }

/-- Error-free environment with a two-byte request body. -/
def env1 : Env :=
  { reqBodyContent := [0, 0], reqBodyReadErr := false, newRequestErr := false,
    originResponse := some origin1, resBodyReadErr := false }

/-- Error-free environment with an empty request body. -/
def env2 : Env := { env1 with reqBodyContent := [] }

/-- A response carrying all three body sources. -/
def cResp : Response :=
  { statusCode := 201, header := some [("A", ["b"])], close := false,
    body := some [3], bodyReader := some [2] }

/-- A trivial URL parser for upstream witnesses. -/
def parse1 : String → Except String (Option URL) :=
  fun s => Except.ok (some { scheme := "http", host := s, rest := "" })

/-- An environment-proxy resolver answering "direct". -/
def envProxyDirect : URL → Except String (Option URL) :=
  fun _ => Except.ok none

/-- A per-request upstream callback. -/
def cbFn1 : String → Except String (Option URL) :=
  fun h => Except.ok (some { scheme := "socks", host := h, rest := "" })

/-! ## Helper lemmas -/

theorem kindAny_append (k : EKind) (l1 l2 : List Event) :
    kindAny k (l1 ++ l2) = (kindAny k l1 || kindAny k l2) := by
  simp [kindAny]

theorem kindAny_eq_false {k : EKind} {evs : List Event} (h : ∀ e ∈ evs, e.kind ≠ k) :
    kindAny k evs = false := by
  simp only [kindAny, List.any_eq_false, beq_iff_eq]
  exact h

theorem kindAny_eq_false_iff {k : EKind} {evs : List Event} :
    kindAny k evs = false ↔ ∀ e ∈ evs, e.kind ≠ k := by
  simp only [kindAny, List.any_eq_false, beq_iff_eq]

theorem hookLoop_kinds {hk : Addon → Flow → HookRes Flow} {ev : Nat → Flow → Event}
    {stop : Flow → Bool} {k : EKind} (hev : ∀ j g, (ev j g).kind = k) :
    ∀ (addons : List Addon) (i : Nat) (f : Flow),
      ∀ e ∈ (hookLoop hk ev stop addons i f).1, e.kind = k := by
  intro addons
  induction addons with
  | nil => intro i f e he; simp [hookLoop] at he
  | cons a rest ih =>
    intro i f e he
    simp only [hookLoop] at he
    cases hr : hk a f with
    | hookPanic m =>
      rw [hr] at he
      simp only [List.mem_singleton] at he
      subst he; exact hev _ _
    | ok f' =>
      rw [hr] at he
      by_cases hs : stop f' = true
      · simp only [hs, if_true, List.mem_singleton] at he
        subst he; exact hev _ _
      · simp only [hs, if_false, Bool.false_eq_true, List.mem_cons] at he
        rcases he with rfl | he
        · exact hev _ _
        · exact ih (i + 1) f' e he

theorem modLoop_kinds {md : Addon → Flow → Option (List Nat) → Flow × Option (List Nat)}
    {ev : Nat → Event} {k : EKind} (hev : ∀ j, (ev j).kind = k) :
    ∀ (addons : List Addon) (i : Nat) (f : Flow) (b : Option (List Nat)),
      ∀ e ∈ (modLoop md ev addons i f b).1, e.kind = k := by
  intro addons
  induction addons with
  | nil => intro i f b e he; simp [modLoop] at he
  | cons a rest ih =>
    intro i f b e he
    simp only [modLoop, List.mem_cons] at he
    rcases he with rfl | he
    · exact hev _
    · exact ih _ _ _ e he

theorem reply_kinds (r : Response) (b : Option (List Nat)) :
    ∀ e ∈ reply r b, e.kind ∈ replyKinds := by
  obtain ⟨st, hd, cl, bd, br⟩ := r
  intro e he
  simp only [reply, List.mem_append] at he
  rcases he with ((((h | h) | h) | h) | h) | h
  · cases hd <;> simp_all [Event.kind, replyKinds]
  · cases cl <;> simp_all [Event.kind, replyKinds]
  · simp_all [Event.kind, replyKinds]
  · cases b <;> simp_all [Event.kind, replyKinds]
  · cases br <;> simp_all [Event.kind, replyKinds]
  · cases bd with
    | none => simp at h
    | some bs =>
      by_cases hb : 0 < bs.length <;> simp_all [Event.kind, replyKinds]

theorem replyOpt_kinds (r : Option Response) (b : Option (List Nat)) :
    ∀ e ∈ replyOpt r b, e.kind ∈ replyKinds := by
  cases r with
  | none => intro e he; simp [replyOpt] at he
  | some resp => exact reply_kinds resp b

theorem accessLoop_kinds : ∀ (addons : List Addon) (i : Nat),
    ∀ e ∈ (accessLoop addons i).1, e.kind = EKind.accessProxy := by
  intro addons
  induction addons with
  | nil => intro i e he; simp [accessLoop] at he
  | cons a rest ih =>
    intro i e he
    simp only [accessLoop] at he
    cases ha : a.accessProxyServer () with
    | hookPanic m =>
      rw [ha] at he
      simp only [List.mem_singleton] at he
      subst he; rfl
    | ok u =>
      rw [ha] at he
      simp only [List.mem_cons] at he
      rcases he with rfl | he
      · rfl
      · exact ih (i + 1) e he

theorem accessLoop_no_panic :
    ∀ (addons : List Addon), (∀ a ∈ addons, (a.accessProxyServer ()).isPanic = false) →
      ∀ i : Nat, accessLoop addons i =
        ((List.range addons.length).map (fun j => Event.accessProxy (i + j)), Outcome.normal) := by
  intro addons
  induction addons with
  | nil => intro _ i; simp [accessLoop]
  | cons a rest ih =>
    intro h i
    have ha : (a.accessProxyServer ()).isPanic = false := h a (List.mem_cons_self a rest)
    simp only [accessLoop]
    cases hc : a.accessProxyServer () with
    | hookPanic m => rw [hc] at ha; simp [HookRes.isPanic] at ha
    | ok u =>
      have hrec := ih (fun x hx => h x (List.mem_cons_of_mem a hx)) (i + 1)
      rw [hrec]
      simp only [List.length_cons, List.range_succ_eq_map, List.map_cons, List.map_map,
        Prod.mk.injEq, and_true]
      congr 1
      apply List.map_congr_left
      intro j _
      have hj : i + 1 + j = i + (j + 1) := by omega
      simp [Function.comp, hj]

theorem hookLoop_cons_head (hk : Addon → Flow → HookRes Flow) (ev : Nat → Flow → Event)
    (stop : Flow → Bool) (a : Addon) (rest : List Addon) (i : Nat) (f : Flow) :
    ∃ t, (hookLoop hk ev stop (a :: rest) i f).1 = ev i f :: t := by
  simp only [hookLoop]
  cases hk a f with
  | hookPanic m => exact ⟨[], rfl⟩
  | ok f' =>
    by_cases hs : stop f' = true
    · simp only [hs, if_true]; exact ⟨[], rfl⟩
    · simp only [hs, if_false, Bool.false_eq_true]
      exact ⟨(hookLoop hk ev stop rest (i + 1) f').1, rfl⟩

theorem streamSnaps_append (l1 l2 : List Event) :
    streamSnaps (l1 ++ l2) = streamSnaps l1 ++ streamSnaps l2 := by
  simp [streamSnaps]

theorem streamSnaps_eq_nil {evs : List Event} (h : ∀ e ∈ evs, e.snapFlow = none) :
    streamSnaps evs = [] := by
  rw [streamSnaps, List.filterMap_eq_nil_iff]
  intro e he
  rw [h e he]
  rfl

theorem snapFlow_none_of_replyKinds {e : Event} (h : e.kind ∈ replyKinds) :
    e.snapFlow = none := by
  cases e <;> simp_all [Event.kind, replyKinds, Event.snapFlow]

theorem spanOK_nil_snaps {a b : Bool} {evs : List Event}
    (h : streamSnaps evs = []) (hab : a ≤ b) : spanOK a evs b := by
  refine ⟨?_, ?_, hab⟩ <;> simp [h]

theorem spanOK_le {a b c : Bool} {evs : List Event} (h : spanOK a evs b) (hbc : b ≤ c) :
    spanOK a evs c :=
  ⟨h.1, fun s hs => ⟨(h.2.1 s hs).1, le_trans (h.2.1 s hs).2 hbc⟩, le_trans h.2.2 hbc⟩

theorem spanOK_append {a b c : Bool} {l1 l2 : List Event}
    (h1 : spanOK a l1 b) (h2 : spanOK b l2 c) : spanOK a (l1 ++ l2) c := by
  obtain ⟨p1, s1, ab⟩ := h1
  obtain ⟨p2, s2, bc⟩ := h2
  refine ⟨?_, ?_, le_trans ab bc⟩
  · rw [streamSnaps_append, List.pairwise_append]
    refine ⟨p1, p2, ?_⟩
    intro x hx y hy
    exact le_trans (s1 x hx).2 (s2 y hy).1
  · rw [streamSnaps_append]
    intro s hs
    rcases List.mem_append.mp hs with hs | hs
    · exact ⟨(s1 s hs).1, le_trans (s1 s hs).2 bc⟩
    · exact ⟨le_trans ab (s2 s hs).1, (s2 s hs).2⟩

theorem spanOK_single {e : Event} {f : Flow} (hsnap : e.snapFlow = some f)
    {b : Bool} (hfb : f.stream ≤ b) : spanOK f.stream [e] b := by
  have hs : streamSnaps [e] = [f.stream] := by simp [streamSnaps, hsnap]
  refine ⟨?_, ?_, hfb⟩ <;> simp [hs, hfb]

theorem spanOK_cons {e : Event} {f : Flow} (hsnap : e.snapFlow = some f)
    {b c : Bool} {l : List Event} (hfb : f.stream ≤ b) (h : spanOK b l c) :
    spanOK f.stream (e :: l) c := by
  obtain ⟨p, s, bc⟩ := h
  have hs : streamSnaps (e :: l) = f.stream :: streamSnaps l := by
    simp [streamSnaps, hsnap]
  refine ⟨?_, ?_, le_trans hfb bc⟩
  · rw [hs]
    refine List.Pairwise.cons ?_ p
    intro x hx
    exact le_trans hfb (s x hx).1
  · rw [hs]
    intro x hx
    rcases List.mem_cons.mp hx with rfl | hx
    · exact ⟨le_rfl, le_trans hfb bc⟩
    · exact ⟨le_trans hfb (s x hx).1, (s x hx).2⟩

theorem hookLoop_spanOK {hk : Addon → Flow → HookRes Flow} {ev : Nat → Flow → Event}
    {stop : Flow → Bool} (hev : ∀ j g, (ev j g).snapFlow = some g) :
    ∀ (addons : List Addon), (∀ a ∈ addons, hookMono (hk a)) →
      ∀ (i : Nat) (f : Flow),
        spanOK f.stream (hookLoop hk ev stop addons i f).1
          (hookLoop hk ev stop addons i f).2.outStream := by
  intro addons
  induction addons with
  | nil =>
    intro _ i f
    simp only [hookLoop, LoopRes.outStream]
    exact spanOK_nil_snaps rfl le_rfl
  | cons a rest ih =>
    intro hm i f
    have hma : hookMono (hk a) := hm a (List.mem_cons_self a rest)
    simp only [hookLoop]
    cases hr : hk a f with
    | hookPanic m =>
      simp only [LoopRes.outStream]
      exact spanOK_single (hev i f) (by simp)
    | ok f' =>
      have hff : f.stream ≤ f'.stream := hma f f' hr
      by_cases hs : stop f' = true
      · simp only [hs, if_true, LoopRes.outStream]
        exact spanOK_single (hev i f) hff
      · simp only [hs, if_false, Bool.false_eq_true]
        have hrec := ih (fun x hx => hm x (List.mem_cons_of_mem a hx)) (i + 1) f'
        exact spanOK_cons (hev i f) hff hrec

theorem hookLoop_done_le {hk : Addon → Flow → HookRes Flow} {ev : Nat → Flow → Event}
    {stop : Flow → Bool} {addons : List Addon} {i : Nat} {f g : Flow} {evs : List Event}
    (hev : ∀ j g, (ev j g).snapFlow = some g)
    (hm : ∀ a ∈ addons, hookMono (hk a))
    (heq : hookLoop hk ev stop addons i f = (evs, LoopRes.done g)) :
    f.stream ≤ g.stream := by
  have := (@hookLoop_spanOK hk ev stop hev addons hm i f).2.2
  rw [heq] at this
  exact this

theorem modLoop_snaps_nil {md : Addon → Flow → Option (List Nat) → Flow × Option (List Nat)}
    {ev : Nat → Event} (hev : ∀ j, (ev j).snapFlow = none) :
    ∀ (addons : List Addon) (i : Nat) (f : Flow) (b : Option (List Nat)),
      streamSnaps (modLoop md ev addons i f b).1 = [] := by
  intro addons
  induction addons with
  | nil => intro i f b; simp [modLoop, streamSnaps]
  | cons a rest ih =>
    intro i f b
    simp only [modLoop]
    rw [streamSnaps, List.filterMap_cons, hev i]
    exact ih _ _ _

theorem streamSnaps_replyOpt (r : Option Response) (b : Option (List Nat)) :
    streamSnaps (replyOpt r b) = [] :=
  streamSnaps_eq_nil (fun e he => snapFlow_none_of_replyKinds (replyOpt_kinds r b e he))

theorem modLoop_stream_le {md : Addon → Flow → Option (List Nat) → Flow × Option (List Nat)}
    {ev : Nat → Event} :
    ∀ (addons : List Addon), (∀ a ∈ addons, modMono (md a)) →
      ∀ (i : Nat) (f : Flow) (b : Option (List Nat)),
        f.stream ≤ ((modLoop md ev addons i f b).2.1).stream := by
  intro addons
  induction addons with
  | nil => intro _ i f b; simp [modLoop]
  | cons a rest ih =>
    intro hm i f b
    simp only [modLoop]
    have h1 : f.stream ≤ (md a f b).1.stream := hm a (List.mem_cons_self a rest) f b
    exact le_trans h1 (ih (fun x hx => hm x (List.mem_cons_of_mem a hx)) _ _ _)

/-! ### Stage-level lemmas -/

theorem hookLoop_mem_of_eq {hk : Addon → Flow → HookRes Flow} {ev : Nat → Flow → Event}
    {stop : Flow → Bool} {addons : List Addon} {i : Nat} {f : Flow} {evs : List Event}
    {r : LoopRes} {k : EKind}
    (heq : hookLoop hk ev stop addons i f = (evs, r))
    (hev : ∀ j g, (ev j g).kind = k) :
    ∀ e ∈ evs, e.kind = k := by
  intro e he
  exact hookLoop_kinds hev addons i f e (by rw [heq]; exact he)

theorem stageReqHeaders_kinds {addons : List Addon} {f0 : Flow} {e : Event}
    (he : e ∈ (stageReqHeaders addons f0).events) :
    e.kind = EKind.reqHeadersHook ∨ e.kind ∈ replyKinds := by
  unfold stageReqHeaders at he
  split at he
  · rename_i levs hL
    simp only [PipeRes.events] at he
    exact Or.inl (hookLoop_mem_of_eq hL (fun _ _ => rfl) e he)
  · rename_i levs f hL
    simp only [PipeRes.events] at he
    rcases List.mem_append.mp he with he | he
    · exact Or.inl (hookLoop_mem_of_eq hL (fun _ _ => rfl) e he)
    · exact Or.inr (replyOpt_kinds _ _ e he)
  · rename_i levs f hL
    simp only [PipeRes.events] at he
    exact Or.inl (hookLoop_mem_of_eq hL (fun _ _ => rfl) e he)

theorem stageReqBody_kinds {threshold : Nat} {addons : List Addon} {env : Env}
    {f1 : Flow} {e : Event} (he : e ∈ (stageReqBody threshold addons env f1).events) :
    e.kind = EKind.requestHook ∨ e.kind ∈ replyKinds := by
  unfold stageReqBody at he
  split at he
  · simp [PipeRes.events] at he
  · split at he
    · simp only [PipeRes.events, List.mem_singleton] at he
      subst he
      exact Or.inr (by simp [Event.kind, replyKinds])
    · simp [PipeRes.events] at he
    · split at he
      · rename_i levs hL
        simp only [PipeRes.events] at he
        exact Or.inl (hookLoop_mem_of_eq hL (fun _ _ => rfl) e he)
      · rename_i levs f hL
        simp only [PipeRes.events] at he
        rcases List.mem_append.mp he with he | he
        · exact Or.inl (hookLoop_mem_of_eq hL (fun _ _ => rfl) e he)
        · exact Or.inr (replyOpt_kinds _ _ e he)
      · rename_i levs f3 hL
        simp only [PipeRes.events] at he
        exact Or.inl (hookLoop_mem_of_eq hL (fun _ _ => rfl) e he)

theorem stageSend_mem {rs rh : String} {env : Env} {f : Flow} {e : Event}
    (he : e ∈ (stageSend rs rh env f).events) :
    e = Event.writeStatus 502 ∨
      e = Event.dialOrigin
        (f.useSeparateClient || (rh != f.request.url.host) || (rs != f.request.url.scheme)) f := by
  unfold stageSend at he
  split at he
  · simp only [PipeRes.events, List.mem_singleton] at he
    exact Or.inl he
  · split at he
    · simp only [PipeRes.events, List.mem_cons, List.mem_singleton] at he
      rcases he with he | he | he
      · exact Or.inr he
      · exact Or.inl he
      · simp at he
    · simp only [PipeRes.events, List.mem_singleton] at he
      exact Or.inr he

theorem stageSend_kinds {rs rh : String} {env : Env} {f : Flow} {e : Event}
    (he : e ∈ (stageSend rs rh env f).events) :
    e.kind = EKind.dialOrigin ∨ e.kind ∈ replyKinds := by
  rcases stageSend_mem he with rfl | rfl
  · exact Or.inr (by simp [Event.kind, replyKinds])
  · exact Or.inl rfl

theorem stageRespHeaders_kinds {addons : List Addon} {f : Flow} {e : Event}
    (he : e ∈ (stageRespHeaders addons f).events) :
    e.kind = EKind.respHeadersHook ∨ e.kind ∈ replyKinds := by
  unfold stageRespHeaders at he
  split at he
  · rename_i levs hL
    simp only [PipeRes.events] at he
    exact Or.inl (hookLoop_mem_of_eq hL (fun _ _ => rfl) e he)
  · rename_i levs f' hL
    simp only [PipeRes.events] at he
    rcases List.mem_append.mp he with he | he
    · exact Or.inl (hookLoop_mem_of_eq hL (fun _ _ => rfl) e he)
    · exact Or.inr (replyOpt_kinds _ _ e he)
  · rename_i levs f' hL
    simp only [PipeRes.events] at he
    exact Or.inl (hookLoop_mem_of_eq hL (fun _ _ => rfl) e he)

theorem stageRespBody_kinds {threshold : Nat} {addons : List Addon} {env : Env}
    {o : OriginResp} {f : Flow} {e : Event}
    (he : e ∈ (stageRespBody threshold addons env o f).events) :
    e.kind = EKind.responseHook ∨ e.kind ∈ replyKinds := by
  unfold stageRespBody at he
  split at he
  · simp [PipeRes.events] at he
  · split at he
    · simp only [PipeRes.events, List.mem_singleton] at he
      subst he
      exact Or.inr (by simp [Event.kind, replyKinds])
    · simp [PipeRes.events] at he
    · split at he
      · rename_i levs hL
        simp only [PipeRes.events] at he
        exact Or.inl (hookLoop_mem_of_eq hL (fun _ _ => rfl) e he)
      · rename_i levs f3 hL
        simp only [PipeRes.events] at he
        exact Or.inl (hookLoop_mem_of_eq hL (fun _ _ => rfl) e he)
      · rename_i levs f3 hL
        simp only [PipeRes.events] at he
        exact Or.inl (hookLoop_mem_of_eq hL (fun _ _ => rfl) e he)

/-! ### Stage span lemmas (for stickiness of `stream`) -/

theorem streamSnaps_cons_none {e : Event} (h : e.snapFlow = none) (rest : List Event) :
    streamSnaps (e :: rest) = streamSnaps rest := by
  simp [streamSnaps, h]

theorem streamSnaps_cons_some {e : Event} {g : Flow} (h : e.snapFlow = some g)
    (rest : List Event) :
    streamSnaps (e :: rest) = g.stream :: streamSnaps rest := by
  simp [streamSnaps, h]

theorem hookLoop_span_of_eq {hk : Addon → Flow → HookRes Flow} {ev : Nat → Flow → Event}
    {stop : Flow → Bool} {addons : List Addon} {i : Nat} {f : Flow} {evs : List Event}
    {r : LoopRes}
    (heq : hookLoop hk ev stop addons i f = (evs, r))
    (hev : ∀ j g, (ev j g).snapFlow = some g)
    (hm : ∀ a ∈ addons, hookMono (hk a)) :
    spanOK f.stream evs r.outStream := by
  have h := @hookLoop_spanOK hk ev stop hev addons hm i f
  rw [heq] at h
  exact h

theorem stageReqHeaders_span_halt {addons : List Addon} {f0 : Flow} {evs : List Event}
    {p : Bool} (hm : ∀ a ∈ addons, hookMono a.requestheaders)
    (h : stageReqHeaders addons f0 = PipeRes.halt evs p) :
    spanOK f0.stream evs true := by
  unfold stageReqHeaders at h
  split at h
  · rename_i levs hL
    cases h
    exact hookLoop_span_of_eq hL (fun _ _ => rfl) hm
  · rename_i levs f hL
    cases h
    have h1 := hookLoop_span_of_eq hL (fun _ _ => rfl) hm
    have h2 : spanOK f.stream (replyOpt f.response none) f.stream :=
      spanOK_nil_snaps (streamSnaps_replyOpt _ _) le_rfl
    exact spanOK_le (spanOK_append h1 h2) (Bool.le_true _)
  · cases h

theorem stageReqHeaders_span_next {addons : List Addon} {f0 : Flow} {evs : List Event}
    {f1 : Flow} (hm : ∀ a ∈ addons, hookMono a.requestheaders)
    (h : stageReqHeaders addons f0 = PipeRes.next evs f1) :
    spanOK f0.stream evs f1.stream := by
  unfold stageReqHeaders at h
  split at h
  · cases h
  · cases h
  · rename_i levs f hL
    cases h
    exact hookLoop_span_of_eq hL (fun _ _ => rfl) hm

theorem stageReqBody_span_halt {threshold : Nat} {addons : List Addon} {env : Env}
    {f1 : Flow} {evs : List Event} {p : Bool}
    (hm : ∀ a ∈ addons, hookMono a.request)
    (h : stageReqBody threshold addons env f1 = PipeRes.halt evs p) :
    spanOK f1.stream evs true := by
  unfold stageReqBody at h
  split at h
  · cases h
  · split at h
    · cases h
      exact spanOK_nil_snaps rfl (Bool.le_true _)
    · cases h
    · split at h
      · rename_i levs hL
        cases h
        exact hookLoop_span_of_eq hL (fun _ _ => rfl) hm
      · rename_i levs f hL
        cases h
        have h1 := hookLoop_span_of_eq hL (fun _ _ => rfl) hm
        have h2 : spanOK f.stream (replyOpt f.response none) f.stream :=
          spanOK_nil_snaps (streamSnaps_replyOpt _ _) le_rfl
        exact spanOK_le (spanOK_append h1 h2) (Bool.le_true _)
      · cases h

theorem stageReqBody_span_next {threshold : Nat} {addons : List Addon} {env : Env}
    {f1 : Flow} {evs : List Event} {fb : Flow × Option (List Nat)}
    (hm : ∀ a ∈ addons, hookMono a.request)
    (h : stageReqBody threshold addons env f1 = PipeRes.next evs fb) :
    spanOK f1.stream evs fb.1.stream := by
  unfold stageReqBody at h
  split at h
  · cases h
    exact spanOK_nil_snaps rfl le_rfl
  · split at h
    · cases h
    · cases h
      exact spanOK_nil_snaps rfl (Bool.le_true _)
    · split at h
      · cases h
      · cases h
      · rename_i levs f3 hL
        cases h
        exact hookLoop_span_of_eq hL (fun _ _ => rfl) hm

theorem stageSend_span_halt {rs rh : String} {env : Env} {f : Flow} {evs : List Event}
    {p : Bool} (h : stageSend rs rh env f = PipeRes.halt evs p) :
    spanOK f.stream evs true := by
  unfold stageSend at h
  split at h
  · cases h
    exact spanOK_nil_snaps rfl (Bool.le_true _)
  · split at h
    · cases h
      refine ⟨?_, ?_, Bool.le_true _⟩
      · simp [streamSnaps, Event.snapFlow]
      · intro s hs
        simp [streamSnaps, Event.snapFlow] at hs
        subst hs
        exact ⟨le_rfl, Bool.le_true _⟩
    · cases h

theorem stageSend_span_next {rs rh : String} {env : Env} {f : Flow} {evs : List Event}
    {fo : Flow × OriginResp} (h : stageSend rs rh env f = PipeRes.next evs fo) :
    spanOK f.stream evs fo.1.stream ∧ fo.1.stream = f.stream := by
  unfold stageSend at h
  split at h
  · cases h
  · split at h
    · cases h
    · rename_i o ho
      cases h
      refine ⟨?_, rfl⟩
      exact spanOK_single (e := Event.dialOrigin
        (f.useSeparateClient || (rh != f.request.url.host) || (rs != f.request.url.scheme)) f)
        rfl le_rfl

theorem stageRespHeaders_span_halt {addons : List Addon} {f : Flow} {evs : List Event}
    {p : Bool} (hm : ∀ a ∈ addons, hookMono a.responseheaders)
    (h : stageRespHeaders addons f = PipeRes.halt evs p) :
    spanOK f.stream evs true := by
  unfold stageRespHeaders at h
  split at h
  · rename_i levs hL
    cases h
    exact hookLoop_span_of_eq hL (fun _ _ => rfl) hm
  · rename_i levs f' hL
    cases h
    have h1 := hookLoop_span_of_eq hL (fun _ _ => rfl) hm
    have h2 : spanOK f'.stream (replyOpt f'.response none) f'.stream :=
      spanOK_nil_snaps (streamSnaps_replyOpt _ _) le_rfl
    exact spanOK_le (spanOK_append h1 h2) (Bool.le_true _)
  · cases h

theorem stageRespHeaders_span_next {addons : List Addon} {f : Flow} {evs : List Event}
    {f5 : Flow} (hm : ∀ a ∈ addons, hookMono a.responseheaders)
    (h : stageRespHeaders addons f = PipeRes.next evs f5) :
    spanOK f.stream evs f5.stream := by
  unfold stageRespHeaders at h
  split at h
  · cases h
  · cases h
  · rename_i levs f' hL
    cases h
    exact hookLoop_span_of_eq hL (fun _ _ => rfl) hm

theorem stageRespBody_span_halt {threshold : Nat} {addons : List Addon} {env : Env}
    {o : OriginResp} {f : Flow} {evs : List Event} {p : Bool}
    (hm : ∀ a ∈ addons, hookMono a.response)
    (h : stageRespBody threshold addons env o f = PipeRes.halt evs p) :
    spanOK f.stream evs true := by
  unfold stageRespBody at h
  split at h
  · cases h
  · split at h
    · cases h
      exact spanOK_nil_snaps rfl (Bool.le_true _)
    · cases h
    · split at h
      · rename_i levs hL
        cases h
        exact hookLoop_span_of_eq hL (fun _ _ => rfl) hm
      · cases h
      · cases h

theorem stageRespBody_span_next {threshold : Nat} {addons : List Addon} {env : Env}
    {o : OriginResp} {f : Flow} {evs : List Event} {fb : Flow × Option (List Nat)}
    (hm : ∀ a ∈ addons, hookMono a.response)
    (h : stageRespBody threshold addons env o f = PipeRes.next evs fb) :
    spanOK f.stream evs fb.1.stream := by
  unfold stageRespBody at h
  split at h
  · cases h
    exact spanOK_nil_snaps rfl le_rfl
  · split at h
    · cases h
    · cases h
      exact spanOK_nil_snaps rfl (Bool.le_true _)
    · split at h
      · cases h
      · rename_i levs f3 hL
        cases h
        exact hookLoop_span_of_eq hL (fun _ _ => rfl) hm
      · rename_i levs f3 hL
        cases h
        exact hookLoop_span_of_eq hL (fun _ _ => rfl) hm

theorem addonStreamMono_parts {addons : List Addon} (hm : ∀ a ∈ addons, addonStreamMono a) :
    (∀ a ∈ addons, hookMono a.requestheaders) ∧ (∀ a ∈ addons, hookMono a.request) ∧
    (∀ a ∈ addons, hookMono a.responseheaders) ∧ (∀ a ∈ addons, hookMono a.response) ∧
    (∀ a ∈ addons, modMono a.streamRequestModifier) ∧
    (∀ a ∈ addons, modMono a.streamResponseModifier) :=
  ⟨fun a ha => (hm a ha).1, fun a ha => (hm a ha).2.1, fun a ha => (hm a ha).2.2.1,
    fun a ha => (hm a ha).2.2.2.1, fun a ha => (hm a ha).2.2.2.2.1,
    fun a ha => (hm a ha).2.2.2.2.2⟩

theorem forwardPipeline_span {threshold : Nat} {addons : List Addon} {req : Request}
    {env : Env} (hm : ∀ a ∈ addons, addonStreamMono a) :
    spanOK (newFlow req).stream (forwardPipeline threshold addons req env).1 true := by
  obtain ⟨hm1, hm2, hm3, hm4, hm5, hm6⟩ := addonStreamMono_parts hm
  rcases hA : stageReqHeaders addons (newFlow req) with ⟨aevs, ap⟩ | ⟨e1, f1⟩
  · have hval : (forwardPipeline threshold addons req env).1 = aevs := by
      simp only [forwardPipeline, hA]
    rw [hval]
    exact stageReqHeaders_span_halt hm1 hA
  · have s1 : spanOK (newFlow req).stream e1 f1.stream := stageReqHeaders_span_next hm1 hA
    rcases hB : stageReqBody threshold addons env f1 with ⟨bevs, bp⟩ | ⟨e2, fb⟩
    · have hval : (forwardPipeline threshold addons req env).1 = e1 ++ bevs := by
        simp only [forwardPipeline, hA, hB]
      rw [hval]
      exact spanOK_append s1 (stageReqBody_span_halt hm2 hB)
    · have s2 : spanOK f1.stream e2 fb.1.stream := stageReqBody_span_next hm2 hB
      have s3 : spanOK fb.1.stream
          (modLoop (fun a => a.streamRequestModifier) Event.streamReqMod addons 0 fb.1 fb.2).1
          ((modLoop (fun a => a.streamRequestModifier) Event.streamReqMod addons 0
            fb.1 fb.2).2.1).stream :=
        spanOK_nil_snaps (@modLoop_snaps_nil (fun a => a.streamRequestModifier)
            Event.streamReqMod (fun _ => rfl) addons 0 fb.1 fb.2)
          (modLoop_stream_le addons hm5 0 fb.1 fb.2)
      rcases hD : stageSend req.url.scheme req.url.host env
          (modLoop (fun a => a.streamRequestModifier) Event.streamReqMod addons 0 fb.1 fb.2).2.1
          with ⟨devs, dp⟩ | ⟨e4, fo⟩
      · have hval : (forwardPipeline threshold addons req env).1 =
            e1 ++ e2 ++
              (modLoop (fun a => a.streamRequestModifier) Event.streamReqMod addons 0
                fb.1 fb.2).1 ++ devs := by
          simp only [forwardPipeline, hA, hB, hD]
        rw [hval]
        exact spanOK_append (spanOK_append (spanOK_append s1 s2) s3) (stageSend_span_halt hD)
      · obtain ⟨s4, hfo⟩ := stageSend_span_next hD
        rcases hE : stageRespHeaders addons fo.1 with ⟨eevs, ep⟩ | ⟨e5, f5⟩
        · have hval : (forwardPipeline threshold addons req env).1 =
              e1 ++ e2 ++
                (modLoop (fun a => a.streamRequestModifier) Event.streamReqMod addons 0
                  fb.1 fb.2).1 ++ e4 ++ eevs := by
            simp only [forwardPipeline, hA, hB, hD, hE]
          rw [hval]
          exact spanOK_append (spanOK_append (spanOK_append (spanOK_append s1 s2) s3) s4)
            (stageRespHeaders_span_halt hm3 hE)
        · have s5 : spanOK fo.1.stream e5 f5.stream := stageRespHeaders_span_next hm3 hE
          rcases hF : stageRespBody threshold addons env fo.2 f5 with ⟨fevs, fp⟩ | ⟨e6, fb2⟩
          · have hval : (forwardPipeline threshold addons req env).1 =
                e1 ++ e2 ++
                  (modLoop (fun a => a.streamRequestModifier) Event.streamReqMod addons 0
                    fb.1 fb.2).1 ++ e4 ++ e5 ++ fevs := by
              simp only [forwardPipeline, hA, hB, hD, hE, hF]
            rw [hval]
            exact spanOK_append
              (spanOK_append (spanOK_append (spanOK_append (spanOK_append s1 s2) s3) s4) s5)
              (stageRespBody_span_halt hm4 hF)
          · have s6 : spanOK f5.stream e6 fb2.1.stream := stageRespBody_span_next hm4 hF
            have s7 : spanOK fb2.1.stream
                (modLoop (fun a => a.streamResponseModifier) Event.streamRespMod addons 0
                  fb2.1 fb2.2).1
                ((modLoop (fun a => a.streamResponseModifier) Event.streamRespMod addons 0
                  fb2.1 fb2.2).2.1).stream :=
              spanOK_nil_snaps (@modLoop_snaps_nil (fun a => a.streamResponseModifier)
                  Event.streamRespMod (fun _ => rfl) addons 0 fb2.1 fb2.2)
                (modLoop_stream_le addons hm6 0 fb2.1 fb2.2)
            have s8 : spanOK
                ((modLoop (fun a => a.streamResponseModifier) Event.streamRespMod addons 0
                  fb2.1 fb2.2).2.1).stream
                (replyOpt
                  ((modLoop (fun a => a.streamResponseModifier) Event.streamRespMod addons 0
                    fb2.1 fb2.2).2.1).response
                  ((modLoop (fun a => a.streamResponseModifier) Event.streamRespMod addons 0
                    fb2.1 fb2.2).2.2)) true :=
              spanOK_nil_snaps (streamSnaps_replyOpt _ _) (Bool.le_true _)
            have hval : (forwardPipeline threshold addons req env).1 =
                e1 ++ e2 ++
                  (modLoop (fun a => a.streamRequestModifier) Event.streamReqMod addons 0
                    fb.1 fb.2).1 ++ e4 ++ e5 ++ e6 ++
                  (modLoop (fun a => a.streamResponseModifier) Event.streamRespMod addons 0
                    fb2.1 fb2.2).1 ++
                  replyOpt
                    ((modLoop (fun a => a.streamResponseModifier) Event.streamRespMod addons 0
                      fb2.1 fb2.2).2.1).response
                    ((modLoop (fun a => a.streamResponseModifier) Event.streamRespMod addons 0
                      fb2.1 fb2.2).2.2) := by
              simp only [forwardPipeline, hA, hB, hD, hE, hF]
            rw [hval]
            exact spanOK_append
              (spanOK_append
                (spanOK_append
                  (spanOK_append (spanOK_append (spanOK_append (spanOK_append s1 s2) s3) s4) s5)
                  s6)
                s7)
              s8

theorem handleConnect_span {addons : List Addon} {req : Request} {cenv : ConnectEnv}
    (hm : ∀ a ∈ addons, addonStreamMono a) :
    spanOK (newFlow req).stream (handleConnect addons req cenv).1 true := by
  obtain ⟨hm1, _, hm3, hm4, _, _⟩ := addonStreamMono_parts hm
  rcases hL1 : hookLoop (fun a => a.requestheaders) Event.reqHeadersHook
      (fun _ => false) addons 0 (newFlow req) with ⟨e1, r1⟩
  have s1 := hookLoop_span_of_eq hL1 (fun _ _ => rfl) hm1
  cases r1 with
  | panicked =>
    have hval : (handleConnect addons req cenv).1 = e1 ++ [Event.finishFlow] := by
      simp only [handleConnect, hL1]
    rw [hval]
    exact spanOK_append s1 (spanOK_nil_snaps rfl le_rfl)
  | stopped f =>
    have hval : (handleConnect addons req cenv).1 = e1 ++ [Event.finishFlow] := by
      simp only [handleConnect, hL1]
    rw [hval]
    exact spanOK_le (spanOK_append s1 (spanOK_nil_snaps rfl le_rfl)) (Bool.le_true _)
  | done f1 =>
    cases hd : cenv.dialErr with
    | true =>
      have hval : (handleConnect addons req cenv).1 =
          (e1 ++ [Event.dialConnect cenv.intercept]) ++
            [Event.writeStatus 502, Event.finishFlow] := by
        simp only [handleConnect, hL1, hd, if_true]
      rw [hval]
      exact spanOK_le
        (spanOK_append (spanOK_append s1 (spanOK_nil_snaps rfl le_rfl))
          (spanOK_nil_snaps rfl le_rfl)) (Bool.le_true _)
    | false =>
      cases hh : cenv.hijackErr with
      | true =>
        have hval : (handleConnect addons req cenv).1 =
            (e1 ++ [Event.dialConnect cenv.intercept]) ++
              [Event.writeStatus 502, Event.finishFlow] := by
          simp only [handleConnect, hL1, hd, hh, Bool.false_eq_true, if_false, if_true]
        rw [hval]
        exact spanOK_le
          (spanOK_append (spanOK_append s1 (spanOK_nil_snaps rfl le_rfl))
            (spanOK_nil_snaps rfl le_rfl)) (Bool.le_true _)
      | false =>
        cases hw : cenv.writeEstablishedErr with
        | true =>
          have hval : (handleConnect addons req cenv).1 =
              ((e1 ++ [Event.dialConnect cenv.intercept]) ++
                [Event.writeString establishedLine]) ++ [Event.finishFlow] := by
            simp only [handleConnect, hL1, hd, hh, hw, Bool.false_eq_true, if_false, if_true]
          rw [hval]
          exact spanOK_le
            (spanOK_append
              (spanOK_append (spanOK_append s1 (spanOK_nil_snaps rfl le_rfl))
                (spanOK_nil_snaps rfl le_rfl))
              (spanOK_nil_snaps rfl le_rfl)) (Bool.le_true _)
        | false =>
          rcases hL2 : hookLoop (fun a => a.responseheaders) Event.respHeadersHook
              (fun _ => false) addons 0 { f1 with response := some connectOKResponse }
              with ⟨e2, r2⟩
          have s2 := hookLoop_span_of_eq hL2 (fun _ _ => rfl) hm3
          have spre : spanOK (newFlow req).stream
              ((e1 ++ [Event.dialConnect cenv.intercept]) ++
                [Event.writeString establishedLine]) f1.stream :=
            spanOK_append (spanOK_append s1 (spanOK_nil_snaps rfl le_rfl))
              (spanOK_nil_snaps rfl le_rfl)
          cases r2 with
          | panicked =>
            have hval : (handleConnect addons req cenv).1 =
                ((e1 ++ [Event.dialConnect cenv.intercept]) ++
                  [Event.writeString establishedLine]) ++ (e2 ++ [Event.finishFlow]) := by
              simp only [handleConnect, hL1, hd, hh, hw, Bool.false_eq_true, if_false, hL2,
                List.append_assoc]
            rw [hval]
            exact spanOK_append spre (spanOK_append s2 (spanOK_nil_snaps rfl le_rfl))
          | stopped f2' =>
            have hval : (handleConnect addons req cenv).1 =
                ((e1 ++ [Event.dialConnect cenv.intercept]) ++
                  [Event.writeString establishedLine]) ++ (e2 ++ [Event.finishFlow]) := by
              simp only [handleConnect, hL1, hd, hh, hw, Bool.false_eq_true, if_false, hL2,
                List.append_assoc]
            rw [hval]
            exact spanOK_append spre
              (spanOK_le (spanOK_append s2 (spanOK_nil_snaps rfl le_rfl)) (Bool.le_true _))
          | done f3 =>
            rcases hL3 : hookLoop (fun a => a.response) Event.responseHook
                (fun _ => false) addons 0 f3 with ⟨e3, r3⟩
            have s3 := hookLoop_span_of_eq hL3 (fun _ _ => rfl) hm4
            have hval : (handleConnect addons req cenv).1 =
                e1 ++ ([Event.dialConnect cenv.intercept] ++
                  ([Event.writeString establishedLine] ++
                    (e2 ++ ([Event.transfer] ++ (e3 ++ [Event.finishFlow]))))) := by
              cases r3 <;>
                simp only [handleConnect, hL1, hd, hh, hw, Bool.false_eq_true, if_false,
                  hL2, hL3, List.append_assoc]
            rw [hval]
            refine spanOK_append s1 ?_
            refine spanOK_append (spanOK_nil_snaps rfl le_rfl) ?_
            refine spanOK_append (spanOK_nil_snaps rfl le_rfl) ?_
            refine spanOK_append s2 ?_
            refine spanOK_append (spanOK_nil_snaps rfl le_rfl) ?_
            exact spanOK_append s3 (spanOK_nil_snaps rfl (Bool.le_true _))

theorem kind_ne_of_eq {e : Event} {k' k : EKind} (h : e.kind = k') (hne : k' ≠ k) :
    e.kind ≠ k := by
  rw [h]
  exact hne

theorem ne_of_mem_replyKinds {e : Event} {k : EKind} (h : e.kind ∈ replyKinds)
    (hk : k ∉ replyKinds) : e.kind ≠ k :=
  fun hek => hk (hek ▸ h)

/-- Every event of a CONNECT run is a hook event or one of the fixed
writes — in particular never `recovered` (there is no `recover` in
`handleConnect`). -/
theorem handleConnect_no_recovered {addons : List Addon} {req : Request} {cenv : ConnectEnv} :
    ∀ e ∈ (handleConnect addons req cenv).1, e.kind ≠ EKind.recovered := by
  intro e he
  rcases hL1 : hookLoop (fun a => a.requestheaders) Event.reqHeadersHook
      (fun _ => false) addons 0 (newFlow req) with ⟨e1, r1⟩
  have hk1 : ∀ x ∈ e1, Event.kind x = EKind.reqHeadersHook :=
    hookLoop_mem_of_eq hL1 (fun _ _ => rfl)
  cases r1 with
  | panicked =>
    have hval : (handleConnect addons req cenv).1 = e1 ++ [Event.finishFlow] := by
      simp only [handleConnect, hL1]
    rw [hval] at he
    rcases List.mem_append.mp he with he | he
    · exact kind_ne_of_eq (hk1 e he) (by decide)
    · simp only [List.mem_singleton] at he
      subst he
      simp [Event.kind]
  | stopped f =>
    have hval : (handleConnect addons req cenv).1 = e1 ++ [Event.finishFlow] := by
      simp only [handleConnect, hL1]
    rw [hval] at he
    rcases List.mem_append.mp he with he | he
    · exact kind_ne_of_eq (hk1 e he) (by decide)
    · simp only [List.mem_singleton] at he
      subst he
      simp [Event.kind]
  | done f1 =>
    cases hd : cenv.dialErr with
    | true =>
      have hval : (handleConnect addons req cenv).1 =
          (e1 ++ [Event.dialConnect cenv.intercept]) ++
            [Event.writeStatus 502, Event.finishFlow] := by
        simp only [handleConnect, hL1, hd, if_true]
      rw [hval] at he
      rcases List.mem_append.mp he with he | he
      · rcases List.mem_append.mp he with he | he
        · exact kind_ne_of_eq (hk1 e he) (by decide)
        · simp only [List.mem_singleton] at he
          subst he
          simp [Event.kind]
      · simp only [List.mem_cons, List.mem_singleton] at he
        rcases he with rfl | rfl | h
        · simp [Event.kind]
        · simp [Event.kind]
        · simp at h
    | false =>
      cases hh : cenv.hijackErr with
      | true =>
        have hval : (handleConnect addons req cenv).1 =
            (e1 ++ [Event.dialConnect cenv.intercept]) ++
              [Event.writeStatus 502, Event.finishFlow] := by
          simp only [handleConnect, hL1, hd, hh, Bool.false_eq_true, if_false, if_true]
        rw [hval] at he
        rcases List.mem_append.mp he with he | he
        · rcases List.mem_append.mp he with he | he
          · exact kind_ne_of_eq (hk1 e he) (by decide)
          · simp only [List.mem_singleton] at he
            subst he
            simp [Event.kind]
        · simp only [List.mem_cons, List.mem_singleton] at he
          rcases he with rfl | rfl | h
          · simp [Event.kind]
          · simp [Event.kind]
          · simp at h
      | false =>
        cases hw : cenv.writeEstablishedErr with
        | true =>
          have hval : (handleConnect addons req cenv).1 =
              ((e1 ++ [Event.dialConnect cenv.intercept]) ++
                [Event.writeString establishedLine]) ++ [Event.finishFlow] := by
            simp only [handleConnect, hL1, hd, hh, hw, Bool.false_eq_true, if_false, if_true]
          rw [hval] at he
          rcases List.mem_append.mp he with he | he
          · rcases List.mem_append.mp he with he | he
            · rcases List.mem_append.mp he with he | he
              · exact kind_ne_of_eq (hk1 e he) (by decide)
              · simp only [List.mem_singleton] at he
                subst he
                simp [Event.kind]
            · simp only [List.mem_singleton] at he
              subst he
              simp [Event.kind]
          · simp only [List.mem_singleton] at he
            subst he
            simp [Event.kind]
        | false =>
          rcases hL2 : hookLoop (fun a => a.responseheaders) Event.respHeadersHook
              (fun _ => false) addons 0 { f1 with response := some connectOKResponse }
              with ⟨e2, r2⟩
          have hk2 : ∀ x ∈ e2, Event.kind x = EKind.respHeadersHook :=
            hookLoop_mem_of_eq hL2 (fun _ _ => rfl)
          have hpre : ∀ x, x ∈ (e1 ++ [Event.dialConnect cenv.intercept]) ++
              [Event.writeString establishedLine] → Event.kind x ≠ EKind.recovered := by
            intro x hx
            rcases List.mem_append.mp hx with hx | hx
            · rcases List.mem_append.mp hx with hx | hx
              · exact kind_ne_of_eq (hk1 x hx) (by decide)
              · simp only [List.mem_singleton] at hx
                subst hx
                simp [Event.kind]
            · simp only [List.mem_singleton] at hx
              subst hx
              simp [Event.kind]
          cases r2 with
          | panicked =>
            have hval : (handleConnect addons req cenv).1 =
                ((e1 ++ [Event.dialConnect cenv.intercept]) ++
                  [Event.writeString establishedLine]) ++ (e2 ++ [Event.finishFlow]) := by
              simp only [handleConnect, hL1, hd, hh, hw, Bool.false_eq_true, if_false, hL2,
                List.append_assoc]
            rw [hval] at he
            rcases List.mem_append.mp he with he | he
            · exact hpre e he
            · rcases List.mem_append.mp he with he | he
              · exact kind_ne_of_eq (hk2 e he) (by decide)
              · simp only [List.mem_singleton] at he
                subst he
                simp [Event.kind]
          | stopped f2' =>
            have hval : (handleConnect addons req cenv).1 =
                ((e1 ++ [Event.dialConnect cenv.intercept]) ++
                  [Event.writeString establishedLine]) ++ (e2 ++ [Event.finishFlow]) := by
              simp only [handleConnect, hL1, hd, hh, hw, Bool.false_eq_true, if_false, hL2,
                List.append_assoc]
            rw [hval] at he
            rcases List.mem_append.mp he with he | he
            · exact hpre e he
            · rcases List.mem_append.mp he with he | he
              · exact kind_ne_of_eq (hk2 e he) (by decide)
              · simp only [List.mem_singleton] at he
                subst he
                simp [Event.kind]
          | done f3 =>
            rcases hL3 : hookLoop (fun a => a.response) Event.responseHook
                (fun _ => false) addons 0 f3 with ⟨e3, r3⟩
            have hk3 : ∀ x ∈ e3, Event.kind x = EKind.responseHook :=
              hookLoop_mem_of_eq hL3 (fun _ _ => rfl)
            have hval : (handleConnect addons req cenv).1 =
                ((e1 ++ [Event.dialConnect cenv.intercept]) ++
                  [Event.writeString establishedLine]) ++
                  (e2 ++ ([Event.transfer] ++ (e3 ++ [Event.finishFlow]))) := by
              cases r3 <;>
                simp only [handleConnect, hL1, hd, hh, hw, Bool.false_eq_true, if_false,
                  hL2, hL3, List.append_assoc]
            rw [hval] at he
            rcases List.mem_append.mp he with he | he
            · exact hpre e he
            · rcases List.mem_append.mp he with he | he
              · exact kind_ne_of_eq (hk2 e he) (by decide)
              · rcases List.mem_append.mp he with he | he
                · simp only [List.mem_singleton] at he
                  subst he
                  simp [Event.kind]
                · rcases List.mem_append.mp he with he | he
                  · exact kind_ne_of_eq (hk3 e he) (by decide)
                  · simp only [List.mem_singleton] at he
                    subst he
                    simp [Event.kind]

/-- When the flow discards buffering (already streaming, or the
request body reached the threshold), the flow leaving the
request-body stage is in stream mode. -/
theorem stageReqBody_next_stream_true {threshold : Nat} {addons : List Addon} {env : Env}
    {f1 : Flow} {e2 : List Event} {fb : Flow × Option (List Nat)}
    (h : stageReqBody threshold addons env f1 = PipeRes.next e2 fb)
    (hcond : f1.stream = true ∨ threshold ≤ env.reqBodyContent.length) :
    fb.1.stream = true := by
  unfold stageReqBody at h
  split at h
  · rename_i hs
    cases h
    exact hs
  · rename_i hs
    split at h
    · cases h
    · cases h
      rfl
    · rename_i buf hr
      rcases hcond with hc | hc
      · exact absurd hc hs
      · unfold readerToBuffer at hr
        by_cases hre : env.reqBodyReadErr = true
        · rw [if_pos hre] at hr
          cases hr
        · rw [if_neg hre, if_pos hc] at hr
          simp at hr

/-- A flow already in stream mode skips the response-body stage
entirely: no buffering, no `Response` hooks, the raw origin reader. -/
theorem stageRespBody_stream_eq {threshold : Nat} {addons : List Addon} {env : Env}
    {o : OriginResp} {f : Flow} (hs : f.stream = true) :
    stageRespBody threshold addons env o f = PipeRes.next [] (f, some o.bodyContent) := by
  unfold stageRespBody
  rw [hs]
  simp

/-! ## Claim theorems -/

/-- C2 counterexample: with all three body sources present (`body`
argument `[1]` from the modifier chain, `BodyReader = [2]`,
`Body = [3]`), `reply` emits `[1], [2], [3]` — not the claimed order
`body_reader` first (`[2], [1], [3]`). -/
theorem c2_reply_order_counterexample :
    bodyChunks (reply cResp (some [1])) = [[1], [2], [3]] ∧
      bodyChunks (reply cResp (some [1])) ≠ [[2], [1], [3]] := by
  decide

/-- C2 (amended): when the proxy writes a response, the body sources
are emitted sequentially in this order whenever non-nil: first the
streamed reader produced by the stream_response_modifier chain (the
`body` argument), then the unbuffered `body_reader`, then the buffered
`body` bytes (the latter only when non-empty). -/
theorem c2_reply_body_order (r : Response) (b : Option (List Nat)) :
    bodyChunks (reply r b) = optChunk b ++ optChunk r.bodyReader ++ bufferedChunk r.body := by
  obtain ⟨st, hd, cl, bd, br⟩ := r
  cases hd <;> cases cl <;> cases b <;> cases br <;> cases bd <;>
    simp [reply, bodyChunks, optChunk, bufferedChunk] <;>
    split_ifs <;> simp

/-- C7: the upstream proxy URL is resolved with first-match-wins
precedence: the per-request callback when set; else the non-empty
static `Opts.Upstream` parsed; else the environment resolver consulted
for scheme `https` and the request's host; and direct when the
environment resolver answers none. -/
theorem c7_upstream_precedence
    (upstreamProxyFn : Option (String → Except String (Option URL)))
    (optsUpstream : String)
    (parse : String → Except String (Option URL))
    (proxyFromEnv : URL → Except String (Option URL))
    (reqHost : String) :
    (∀ fn, upstreamProxyFn = some fn →
      getUpstreamProxyUrl upstreamProxyFn optsUpstream parse proxyFromEnv reqHost =
        fn reqHost) ∧
    (upstreamProxyFn = none → 0 < optsUpstream.length →
      getUpstreamProxyUrl upstreamProxyFn optsUpstream parse proxyFromEnv reqHost =
        parse optsUpstream) ∧
    (upstreamProxyFn = none → optsUpstream.length = 0 →
      getUpstreamProxyUrl upstreamProxyFn optsUpstream parse proxyFromEnv reqHost =
        proxyFromEnv { scheme := "https", host := reqHost, rest := "" }) ∧
    (upstreamProxyFn = none → optsUpstream.length = 0 →
      proxyFromEnv { scheme := "https", host := reqHost, rest := "" } = Except.ok none →
      getUpstreamProxyUrl upstreamProxyFn optsUpstream parse proxyFromEnv reqHost =
        Except.ok none) := by
  refine ⟨?_, ?_, ?_, ?_⟩
  · intro fn hfn
    subst hfn
    rfl
  · intro hfn hlen
    subst hfn
    simp [getUpstreamProxyUrl, hlen]
  · intro hfn hlen
    subst hfn
    simp [getUpstreamProxyUrl, hlen]
  · intro hfn hlen henv
    subst hfn
    simp [getUpstreamProxyUrl, hlen, henv]

/-- C7 witness: the three precedence levels at concrete inputs. -/
theorem c7_upstream_precedence_witness :
    (getUpstreamProxyUrl (some cbFn1) "up" parse1 envProxyDirect "h" = cbFn1 "h") ∧
    (getUpstreamProxyUrl none "up" parse1 envProxyDirect "h" = parse1 "up") ∧
    (getUpstreamProxyUrl none "" parse1 envProxyDirect "h" =
      envProxyDirect { scheme := "https", host := "h", rest := "" }) ∧
    (getUpstreamProxyUrl none "" parse1 envProxyDirect "h" = Except.ok none) :=
  ⟨(c7_upstream_precedence (some cbFn1) "up" parse1 envProxyDirect "h").1 cbFn1 rfl,
    (c7_upstream_precedence none "up" parse1 envProxyDirect "h").2.1 rfl (by decide),
    (c7_upstream_precedence none "" parse1 envProxyDirect "h").2.2.1 rfl rfl,
    (c7_upstream_precedence none "" parse1 envProxyDirect "h").2.2.2 rfl rfl rfl⟩

/-- C6: a non-CONNECT request whose URL has no scheme or no host is
treated as addressed to the proxy itself: with no addon registered the
proxy replies 400 with the fixed message; otherwise every addon's
`AccessProxyServer` is invoked (in order) and the proxy itself writes
nothing. -/
theorem c6_proxy_self_request (threshold : Nat) (addons : List Addon) (req : Request)
    (env : Env) (cenv : ConnectEnv)
    (hm : req.method ≠ "CONNECT") (hrel : req.url.scheme = "" ∨ req.url.host = "") :
    (addons = [] → serveHTTP threshold addons req env cenv =
      ([Event.writeStatus 400, Event.writeString directMsg], Outcome.normal)) ∧
    (addons ≠ [] → (∀ a ∈ addons, (a.accessProxyServer ()).isPanic = false) →
      serveHTTP threshold addons req env cenv =
        ((List.range addons.length).map Event.accessProxy, Outcome.normal)) := by
  constructor
  · intro h0
    subst h0
    unfold serveHTTP
    rw [if_neg hm, if_pos hrel]
    simp
  · intro hne hnp
    unfold serveHTTP
    rw [if_neg hm, if_pos hrel, if_neg (by simpa [List.length_eq_zero] using hne)]
    rw [accessLoop_no_panic addons hnp 0]
    simp

/-- C6 witness: both branches at concrete inputs. -/
theorem c6_proxy_self_request_witness :
    (serveHTTP 5 [] relreq env1 cenv0 =
      ([Event.writeStatus 400, Event.writeString directMsg], Outcome.normal)) ∧
    (serveHTTP 5 [noopAddon] relreq env1 cenv0 =
      ([Event.accessProxy 0], Outcome.normal)) := by
  constructor
  · exact (c6_proxy_self_request 5 [] relreq env1 cenv0 (by decide) (by simp [relreq])).1 rfl
  · have h := (c6_proxy_self_request 5 [noopAddon] relreq env1 cenv0 (by decide)
      (by simp [relreq])).2 (by simp) (by intro a ha; simp at ha; subst ha; rfl)
    simpa using h

theorem writeStatus_mem_reply (r : Response) (b : Option (List Nat)) :
    Event.writeStatus r.statusCode ∈ reply r b := by
  unfold reply
  simp [List.mem_append]

/-- C3: when an addon sets `flow.Response` during the `Requestheaders`
loop, the proxy immediately replies with that response and finalizes
the flow: the whole trace is the fired request-headers hooks, the
reply, and `flow.finish`; the origin is never dialled and no
subsequent hook (`Request`, stream request modifiers,
`Responseheaders`, `Response`, stream response modifiers) fires. -/
theorem c3_requestheaders_short_circuit (threshold : Nat) (addons : List Addon)
    (req : Request) (env : Env) (cenv : ConnectEnv) (e1 : List Event) (f1 : Flow)
    (r : Response)
    (hm : req.method ≠ "CONNECT") (hrel : ¬(req.url.scheme = "" ∨ req.url.host = ""))
    (hL : hookLoop (fun a => a.requestheaders) Event.reqHeadersHook
      (fun f => f.response.isSome) addons 0 (newFlow req) = (e1, LoopRes.stopped f1))
    (hr : f1.response = some r) :
    serveHTTP threshold addons req env cenv =
      ((e1 ++ reply r none) ++ [Event.finishFlow], Outcome.normal) ∧
    Event.writeStatus r.statusCode ∈ (serveHTTP threshold addons req env cenv).1 ∧
    Event.finishFlow ∈ (serveHTTP threshold addons req env cenv).1 ∧
    kindAny EKind.dialOrigin (serveHTTP threshold addons req env cenv).1 = false ∧
    kindAny EKind.requestHook (serveHTTP threshold addons req env cenv).1 = false ∧
    kindAny EKind.streamReqMod (serveHTTP threshold addons req env cenv).1 = false ∧
    kindAny EKind.respHeadersHook (serveHTTP threshold addons req env cenv).1 = false ∧
    kindAny EKind.responseHook (serveHTTP threshold addons req env cenv).1 = false ∧
    kindAny EKind.streamRespMod (serveHTTP threshold addons req env cenv).1 = false := by
  have hA : stageReqHeaders addons (newFlow req) =
      PipeRes.halt (e1 ++ reply r none) false := by
    simp only [stageReqHeaders, hL, hr, replyOpt]
  have hSH : serveHTTP threshold addons req env cenv =
      ((e1 ++ reply r none) ++ [Event.finishFlow], Outcome.normal) := by
    simp only [serveHTTP, if_neg hm, if_neg hrel, forwardPipeline, hA, Bool.false_eq_true,
      if_false]
  have hclean : ∀ k : EKind, k ≠ EKind.reqHeadersHook → k ∉ replyKinds →
      k ≠ EKind.finishFlow →
      kindAny k (serveHTTP threshold addons req env cenv).1 = false := by
    intro k hk1 hk2 hk3
    rw [hSH]
    apply kindAny_eq_false
    intro e he
    rcases List.mem_append.mp he with he | he
    · rcases List.mem_append.mp he with he | he
      · exact kind_ne_of_eq (hookLoop_mem_of_eq hL (fun _ _ => rfl) e he) (Ne.symm hk1)
      · exact ne_of_mem_replyKinds (reply_kinds r none e he) hk2
    · simp only [List.mem_singleton] at he
      subst he
      exact kind_ne_of_eq rfl (Ne.symm hk3)
  refine ⟨hSH, ?_, ?_, ?_, ?_, ?_, ?_, ?_, ?_⟩
  · rw [hSH]
    exact List.mem_append.mpr
      (Or.inl (List.mem_append.mpr (Or.inr (writeStatus_mem_reply r none))))
  · rw [hSH]
    simp
  · exact hclean _ (by decide) (by decide) (by decide)
  · exact hclean _ (by decide) (by decide) (by decide)
  · exact hclean _ (by decide) (by decide) (by decide)
  · exact hclean _ (by decide) (by decide) (by decide)
  · exact hclean _ (by decide) (by decide) (by decide)
  · exact hclean _ (by decide) (by decide) (by decide)

/-- C3 witness: a concrete addon that short-circuits with a 418. -/
theorem c3_requestheaders_short_circuit_witness :
    serveHTTP 5 [scAddon] creq env1 cenv0 =
      (([Event.reqHeadersHook 0 (newFlow creq)] ++ reply teapotResponse none) ++
        [Event.finishFlow], Outcome.normal) :=
  (c3_requestheaders_short_circuit 5 [scAddon] creq env1 cenv0
    [Event.reqHeadersHook 0 (newFlow creq)]
    { newFlow creq with response := some teapotResponse } teapotResponse
    (by decide) (by decide) rfl rfl).1

theorem stageReqHeaders_next_kinds {addons : List Addon} {f0 : Flow} {evs : List Event}
    {f1 : Flow} (h : stageReqHeaders addons f0 = PipeRes.next evs f1) :
    ∀ e ∈ evs, e.kind = EKind.reqHeadersHook := by
  unfold stageReqHeaders at h
  split at h
  · cases h
  · cases h
  · rename_i levs f hL
    cases h
    exact hookLoop_mem_of_eq hL (fun _ _ => rfl)

theorem stageReqBody_next_kinds {threshold : Nat} {addons : List Addon} {env : Env}
    {f1 : Flow} {evs : List Event} {fb : Flow × Option (List Nat)}
    (h : stageReqBody threshold addons env f1 = PipeRes.next evs fb) :
    ∀ e ∈ evs, e.kind = EKind.requestHook := by
  unfold stageReqBody at h
  split at h
  · cases h
    intro e he
    simp at he
  · split at h
    · cases h
    · cases h
      intro e he
      simp at he
    · split at h
      · cases h
      · cases h
      · rename_i levs f3 hL
        cases h
        exact hookLoop_mem_of_eq hL (fun _ _ => rfl)

theorem stageSend_do_err {rs rh : String} {env : Env} {f : Flow}
    (hn : env.newRequestErr = false) (ho : env.originResponse = none) :
    stageSend rs rh env f = PipeRes.halt
      [Event.dialOrigin (f.useSeparateClient || (rh != f.request.url.host) ||
        (rs != f.request.url.scheme)) f, Event.writeStatus 502] false := by
  unfold stageSend
  rw [hn, ho]
  simp

/-- C5: an origin-side failure before the response exists — a
request-body read error, an outbound request construction error, or a
`client.Do` error — writes exactly status 502 to the client and
finalizes the flow. -/
theorem c5_origin_errors_502 (threshold : Nat) (addons : List Addon) (req : Request)
    (env : Env) (cenv : ConnectEnv) (e1 : List Event) (f1 : Flow)
    (hm : req.method ≠ "CONNECT") (hrel : ¬(req.url.scheme = "" ∨ req.url.host = ""))
    (hA : stageReqHeaders addons (newFlow req) = PipeRes.next e1 f1) :
    (f1.stream = false → env.reqBodyReadErr = true →
      Event.writeStatus 502 ∈ (serveHTTP threshold addons req env cenv).1 ∧
      Event.finishFlow ∈ (serveHTTP threshold addons req env cenv).1 ∧
      (∀ n, Event.writeStatus n ∈ (serveHTTP threshold addons req env cenv).1 → n = 502)) ∧
    (∀ e2 fb, stageReqBody threshold addons env f1 = PipeRes.next e2 fb →
      env.newRequestErr = true →
      Event.writeStatus 502 ∈ (serveHTTP threshold addons req env cenv).1 ∧
      Event.finishFlow ∈ (serveHTTP threshold addons req env cenv).1 ∧
      (∀ n, Event.writeStatus n ∈ (serveHTTP threshold addons req env cenv).1 → n = 502)) ∧
    (∀ e2 fb, stageReqBody threshold addons env f1 = PipeRes.next e2 fb →
      env.newRequestErr = false → env.originResponse = none →
      Event.writeStatus 502 ∈ (serveHTTP threshold addons req env cenv).1 ∧
      Event.finishFlow ∈ (serveHTTP threshold addons req env cenv).1 ∧
      (∀ n, Event.writeStatus n ∈ (serveHTTP threshold addons req env cenv).1 → n = 502)) := by
  have hk1 := stageReqHeaders_next_kinds hA
  refine ⟨?_, ?_, ?_⟩
  · intro hstream herr
    have hB : stageReqBody threshold addons env f1 =
        PipeRes.halt [Event.writeStatus 502] false := by
      unfold stageReqBody
      rw [hstream]
      simp [readerToBuffer, herr]
    have hSH : serveHTTP threshold addons req env cenv =
        ((e1 ++ [Event.writeStatus 502]) ++ [Event.finishFlow], Outcome.normal) := by
      simp only [serveHTTP, if_neg hm, if_neg hrel, forwardPipeline, hA, hB,
        Bool.false_eq_true, if_false]
    refine ⟨by rw [hSH]; simp, by rw [hSH]; simp, ?_⟩
    intro n hn
    rw [hSH] at hn
    rcases List.mem_append.mp hn with hn | hn
    · rcases List.mem_append.mp hn with hn | hn
      · have := hk1 _ hn
        simp [Event.kind] at this
      · simp only [List.mem_singleton] at hn
        exact (Event.writeStatus.injEq _ _).mp hn
    · simp at hn
  · intro e2 fb hB hnre
    have hk2 := stageReqBody_next_kinds hB
    have hD : stageSend req.url.scheme req.url.host env
        (modLoop (fun a => a.streamRequestModifier) Event.streamReqMod addons 0
          fb.1 fb.2).2.1 = PipeRes.halt [Event.writeStatus 502] false := by
      unfold stageSend
      rw [hnre]
      simp
    have hSH : serveHTTP threshold addons req env cenv =
        (e1 ++ (e2 ++
          ((modLoop (fun a => a.streamRequestModifier) Event.streamReqMod addons 0
            fb.1 fb.2).1 ++ ([Event.writeStatus 502] ++ [Event.finishFlow]))),
          Outcome.normal) := by
      simp only [serveHTTP, if_neg hm, if_neg hrel, forwardPipeline, hA, hB, hD,
        Bool.false_eq_true, if_false, List.append_assoc]
    refine ⟨by rw [hSH]; simp, by rw [hSH]; simp, ?_⟩
    intro n hn
    rw [hSH] at hn
    rcases List.mem_append.mp hn with hn | hn
    · have := hk1 _ hn
      simp [Event.kind] at this
    · rcases List.mem_append.mp hn with hn | hn
      · have := hk2 _ hn
        simp [Event.kind] at this
      · rcases List.mem_append.mp hn with hn | hn
        · have := @modLoop_kinds (fun a => a.streamRequestModifier)
            Event.streamReqMod EKind.streamReqMod (fun _ => rfl) addons 0 fb.1 fb.2 _ hn
          simp [Event.kind] at this
        · rcases List.mem_append.mp hn with hn | hn
          · simp only [List.mem_singleton] at hn
            exact (Event.writeStatus.injEq _ _).mp hn
          · simp at hn
  · intro e2 fb hB hnre ho
    have hk2 := stageReqBody_next_kinds hB
    have hD := @stageSend_do_err req.url.scheme req.url.host env
      ((modLoop (fun a => a.streamRequestModifier) Event.streamReqMod addons 0
        fb.1 fb.2).2.1) hnre ho
    have hSH : serveHTTP threshold addons req env cenv =
        (e1 ++ (e2 ++
          ((modLoop (fun a => a.streamRequestModifier) Event.streamReqMod addons 0
            fb.1 fb.2).1 ++
            ([Event.dialOrigin
              ((modLoop (fun a => a.streamRequestModifier) Event.streamReqMod addons 0
                fb.1 fb.2).2.1.useSeparateClient ||
                (req.url.host !=
                  (modLoop (fun a => a.streamRequestModifier) Event.streamReqMod addons 0
                    fb.1 fb.2).2.1.request.url.host) ||
                (req.url.scheme !=
                  (modLoop (fun a => a.streamRequestModifier) Event.streamReqMod addons 0
                    fb.1 fb.2).2.1.request.url.scheme))
              (modLoop (fun a => a.streamRequestModifier) Event.streamReqMod addons 0
                fb.1 fb.2).2.1,
              Event.writeStatus 502] ++ [Event.finishFlow]))), Outcome.normal) := by
      simp only [serveHTTP, if_neg hm, if_neg hrel, forwardPipeline, hA, hB, hD,
        Bool.false_eq_true, if_false, List.append_assoc]
    refine ⟨by rw [hSH]; simp, by rw [hSH]; simp, ?_⟩
    intro n hn
    rw [hSH] at hn
    rcases List.mem_append.mp hn with hn | hn
    · have := hk1 _ hn
      simp [Event.kind] at this
    · rcases List.mem_append.mp hn with hn | hn
      · have := hk2 _ hn
        simp [Event.kind] at this
      · rcases List.mem_append.mp hn with hn | hn
        · have := @modLoop_kinds (fun a => a.streamRequestModifier)
            Event.streamReqMod EKind.streamReqMod (fun _ => rfl) addons 0 fb.1 fb.2 _ hn
          simp [Event.kind] at this
        · rcases List.mem_append.mp hn with hn | hn
          · simp only [List.mem_cons, List.mem_singleton] at hn
            rcases hn with hn | hn | hn
            · cases hn
            · exact (Event.writeStatus.injEq _ _).mp hn
            · simp at hn
          · simp at hn

/-- C5 witness: the three failure kinds at concrete inputs. -/
theorem c5_origin_errors_502_witness :
    (Event.writeStatus 502 ∈
      (serveHTTP 5 [noopAddon] creq { env2 with reqBodyReadErr := true } cenv0).1 ∧
      Event.finishFlow ∈
        (serveHTTP 5 [noopAddon] creq { env2 with reqBodyReadErr := true } cenv0).1) ∧
    (Event.writeStatus 502 ∈
      (serveHTTP 5 [noopAddon] creq { env2 with newRequestErr := true } cenv0).1 ∧
      Event.finishFlow ∈
        (serveHTTP 5 [noopAddon] creq { env2 with newRequestErr := true } cenv0).1) ∧
    (Event.writeStatus 502 ∈
      (serveHTTP 5 [noopAddon] creq { env2 with originResponse := none } cenv0).1 ∧
      Event.finishFlow ∈
        (serveHTTP 5 [noopAddon] creq { env2 with originResponse := none } cenv0).1) := by
  refine ⟨?_, ?_, ?_⟩
  · have h := ((c5_origin_errors_502 5 [noopAddon] creq
      { env2 with reqBodyReadErr := true } cenv0 [Event.reqHeadersHook 0 (newFlow creq)]
      (newFlow creq) (by decide) (by decide) rfl).1) rfl rfl
    exact ⟨h.1, h.2.1⟩
  · have h := ((c5_origin_errors_502 5 [noopAddon] creq
      { env2 with newRequestErr := true } cenv0 [Event.reqHeadersHook 0 (newFlow creq)]
      (newFlow creq) (by decide) (by decide) rfl).2.1)
      [Event.requestHook 0 (withReqBody (newFlow creq) [])]
      ({ newFlow creq with request := { (newFlow creq).request with body := some [] } },
        some []) rfl rfl
    exact ⟨h.1, h.2.1⟩
  · have h := ((c5_origin_errors_502 5 [noopAddon] creq
      { env2 with originResponse := none } cenv0 [Event.reqHeadersHook 0 (newFlow creq)]
      (newFlow creq) (by decide) (by decide) rfl).2.2)
      [Event.requestHook 0 (withReqBody (newFlow creq) [])]
      ({ newFlow creq with request := { (newFlow creq).request with body := some [] } },
        some []) rfl rfl rfl
    exact ⟨h.1, h.2.1⟩

/-- Master decomposition: every event of a forward-pipeline trace
comes from one of the stages, and reaching a deeper stage is witnessed
by the `next` results of all earlier stages. -/
theorem forwardPipeline_mem {threshold : Nat} {addons : List Addon} {req : Request}
    {env : Env} {e : Event} (he : e ∈ (forwardPipeline threshold addons req env).1) :
    e ∈ (stageReqHeaders addons (newFlow req)).events ∨
    ∃ e1 f1, stageReqHeaders addons (newFlow req) = PipeRes.next e1 f1 ∧
      (e ∈ (stageReqBody threshold addons env f1).events ∨
      ∃ e2 fb, stageReqBody threshold addons env f1 = PipeRes.next e2 fb ∧
        (e ∈ (modLoop (fun a => a.streamRequestModifier) Event.streamReqMod addons 0
            fb.1 fb.2).1 ∨
        e ∈ (stageSend req.url.scheme req.url.host env
          (modLoop (fun a => a.streamRequestModifier) Event.streamReqMod addons 0
            fb.1 fb.2).2.1).events ∨
        ∃ e4 fo, stageSend req.url.scheme req.url.host env
            (modLoop (fun a => a.streamRequestModifier) Event.streamReqMod addons 0
              fb.1 fb.2).2.1 = PipeRes.next e4 fo ∧
          (e ∈ (stageRespHeaders addons fo.1).events ∨
          ∃ e5 f5, stageRespHeaders addons fo.1 = PipeRes.next e5 f5 ∧
            (e ∈ (stageRespBody threshold addons env fo.2 f5).events ∨
            ∃ e6 fb2, stageRespBody threshold addons env fo.2 f5 = PipeRes.next e6 fb2 ∧
              (e ∈ (modLoop (fun a => a.streamResponseModifier) Event.streamRespMod addons 0
                  fb2.1 fb2.2).1 ∨
              e ∈ replyOpt
                ((modLoop (fun a => a.streamResponseModifier) Event.streamRespMod addons 0
                  fb2.1 fb2.2).2.1).response
                ((modLoop (fun a => a.streamResponseModifier) Event.streamRespMod addons 0
                  fb2.1 fb2.2).2.2)))))) := by
  rcases hA : stageReqHeaders addons (newFlow req) with ⟨aevs, ap⟩ | ⟨e1, f1⟩
  · have hval : (forwardPipeline threshold addons req env).1 = aevs := by
      simp only [forwardPipeline, hA]
    rw [hval] at he
    exact Or.inl he
  · rcases hB : stageReqBody threshold addons env f1 with ⟨bevs, bp⟩ | ⟨e2, fb⟩
    · have hval : (forwardPipeline threshold addons req env).1 = e1 ++ bevs := by
        simp only [forwardPipeline, hA, hB]
      rw [hval] at he
      rcases List.mem_append.mp he with he | he
      · exact Or.inl he
      · exact Or.inr ⟨e1, f1, rfl, Or.inl (by rw [hB]; exact he)⟩
    · rcases hD : stageSend req.url.scheme req.url.host env
          (modLoop (fun a => a.streamRequestModifier) Event.streamReqMod addons 0
            fb.1 fb.2).2.1 with ⟨devs, dp⟩ | ⟨e4, fo⟩
      · have hval : (forwardPipeline threshold addons req env).1 =
            e1 ++ (e2 ++
              ((modLoop (fun a => a.streamRequestModifier) Event.streamReqMod addons 0
                fb.1 fb.2).1 ++ devs)) := by
          simp only [forwardPipeline, hA, hB, hD, List.append_assoc]
        rw [hval] at he
        rcases List.mem_append.mp he with he | he
        · exact Or.inl he
        · rcases List.mem_append.mp he with he | he
          · exact Or.inr ⟨e1, f1, rfl, Or.inl (by rw [hB]; exact he)⟩
          · rcases List.mem_append.mp he with he | he
            · exact Or.inr ⟨e1, f1, rfl, Or.inr ⟨e2, fb, hB, Or.inl he⟩⟩
            · exact Or.inr ⟨e1, f1, rfl, Or.inr ⟨e2, fb, hB,
                Or.inr (Or.inl (by rw [hD]; exact he))⟩⟩
      · rcases hE : stageRespHeaders addons fo.1 with ⟨eevs, ep⟩ | ⟨e5, f5⟩
        · have hval : (forwardPipeline threshold addons req env).1 =
              e1 ++ (e2 ++
                ((modLoop (fun a => a.streamRequestModifier) Event.streamReqMod addons 0
                  fb.1 fb.2).1 ++ (e4 ++ eevs))) := by
            simp only [forwardPipeline, hA, hB, hD, hE, List.append_assoc]
          rw [hval] at he
          rcases List.mem_append.mp he with he | he
          · exact Or.inl he
          · rcases List.mem_append.mp he with he | he
            · exact Or.inr ⟨e1, f1, rfl, Or.inl (by rw [hB]; exact he)⟩
            · rcases List.mem_append.mp he with he | he
              · exact Or.inr ⟨e1, f1, rfl, Or.inr ⟨e2, fb, hB, Or.inl he⟩⟩
              · rcases List.mem_append.mp he with he | he
                · exact Or.inr ⟨e1, f1, rfl, Or.inr ⟨e2, fb, hB,
                    Or.inr (Or.inl (by rw [hD]; exact he))⟩⟩
                · exact Or.inr ⟨e1, f1, rfl, Or.inr ⟨e2, fb, hB, Or.inr (Or.inr
                    ⟨e4, fo, hD, Or.inl (by rw [hE]; exact he)⟩)⟩⟩
        · rcases hF : stageRespBody threshold addons env fo.2 f5
              with ⟨fevs, fp⟩ | ⟨e6, fb2⟩
          · have hval : (forwardPipeline threshold addons req env).1 =
                e1 ++ (e2 ++
                  ((modLoop (fun a => a.streamRequestModifier) Event.streamReqMod addons 0
                    fb.1 fb.2).1 ++ (e4 ++ (e5 ++ fevs)))) := by
              simp only [forwardPipeline, hA, hB, hD, hE, hF, List.append_assoc]
            rw [hval] at he
            rcases List.mem_append.mp he with he | he
            · exact Or.inl he
            · rcases List.mem_append.mp he with he | he
              · exact Or.inr ⟨e1, f1, rfl, Or.inl (by rw [hB]; exact he)⟩
              · rcases List.mem_append.mp he with he | he
                · exact Or.inr ⟨e1, f1, rfl, Or.inr ⟨e2, fb, hB, Or.inl he⟩⟩
                · rcases List.mem_append.mp he with he | he
                  · exact Or.inr ⟨e1, f1, rfl, Or.inr ⟨e2, fb, hB,
                      Or.inr (Or.inl (by rw [hD]; exact he))⟩⟩
                  · rcases List.mem_append.mp he with he | he
                    · exact Or.inr ⟨e1, f1, rfl, Or.inr ⟨e2, fb, hB, Or.inr (Or.inr
                        ⟨e4, fo, hD, Or.inl (by rw [hE]; exact he)⟩)⟩⟩
                    · exact Or.inr ⟨e1, f1, rfl, Or.inr ⟨e2, fb, hB, Or.inr (Or.inr
                        ⟨e4, fo, hD, Or.inr ⟨e5, f5, hE,
                          Or.inl (by rw [hF]; exact he)⟩⟩)⟩⟩
          · have hval : (forwardPipeline threshold addons req env).1 =
                e1 ++ (e2 ++
                  ((modLoop (fun a => a.streamRequestModifier) Event.streamReqMod addons 0
                    fb.1 fb.2).1 ++ (e4 ++ (e5 ++ (e6 ++
                    ((modLoop (fun a => a.streamResponseModifier) Event.streamRespMod addons 0
                      fb2.1 fb2.2).1 ++
                      replyOpt
                        ((modLoop (fun a => a.streamResponseModifier) Event.streamRespMod
                          addons 0 fb2.1 fb2.2).2.1).response
                        ((modLoop (fun a => a.streamResponseModifier) Event.streamRespMod
                          addons 0 fb2.1 fb2.2).2.2))))))) := by
              simp only [forwardPipeline, hA, hB, hD, hE, hF, List.append_assoc]
            rw [hval] at he
            rcases List.mem_append.mp he with he | he
            · exact Or.inl he
            · rcases List.mem_append.mp he with he | he
              · exact Or.inr ⟨e1, f1, rfl, Or.inl (by rw [hB]; exact he)⟩
              · rcases List.mem_append.mp he with he | he
                · exact Or.inr ⟨e1, f1, rfl, Or.inr ⟨e2, fb, hB, Or.inl he⟩⟩
                · rcases List.mem_append.mp he with he | he
                  · exact Or.inr ⟨e1, f1, rfl, Or.inr ⟨e2, fb, hB,
                      Or.inr (Or.inl (by rw [hD]; exact he))⟩⟩
                  · rcases List.mem_append.mp he with he | he
                    · exact Or.inr ⟨e1, f1, rfl, Or.inr ⟨e2, fb, hB, Or.inr (Or.inr
                        ⟨e4, fo, hD, Or.inl (by rw [hE]; exact he)⟩)⟩⟩
                    · rcases List.mem_append.mp he with he | he
                      · exact Or.inr ⟨e1, f1, rfl, Or.inr ⟨e2, fb, hB, Or.inr (Or.inr
                          ⟨e4, fo, hD, Or.inr ⟨e5, f5, hE,
                            Or.inl (by rw [hF]; exact he)⟩⟩)⟩⟩
                      · rcases List.mem_append.mp he with he | he
                        · exact Or.inr ⟨e1, f1, rfl, Or.inr ⟨e2, fb, hB, Or.inr (Or.inr
                            ⟨e4, fo, hD, Or.inr ⟨e5, f5, hE, Or.inr
                              ⟨e6, fb2, hF, Or.inl he⟩⟩⟩)⟩⟩
                        · exact Or.inr ⟨e1, f1, rfl, Or.inr ⟨e2, fb, hB, Or.inr (Or.inr
                            ⟨e4, fo, hD, Or.inr ⟨e5, f5, hE, Or.inr
                              ⟨e6, fb2, hF, Or.inr he⟩⟩⟩)⟩⟩

/-- C8: whenever the forward pipeline sends the outbound request, the
selected client is the separate pooled one exactly when
`flow.UseSeparateClient` is set or the request URL's host or scheme
differs from the values captured before the `Requestheaders` hooks ran
(the inbound request's); otherwise the per-ConnContext keep-alive
client is used. -/
theorem c8_separate_client_selection (threshold : Nat) (addons : List Addon)
    (req : Request) (env : Env) (sep : Bool) (f : Flow)
    (hmem : Event.dialOrigin sep f ∈ (forwardPipeline threshold addons req env).1) :
    sep = (f.useSeparateClient || (req.url.host != f.request.url.host) ||
      (req.url.scheme != f.request.url.scheme)) := by
  rcases forwardPipeline_mem hmem with h | ⟨e1, f1, hA, h⟩
  · rcases stageReqHeaders_kinds h with hk | hk
    · simp [Event.kind] at hk
    · simp [Event.kind, replyKinds] at hk
  · rcases h with h | ⟨e2, fb, hB, h⟩
    · rcases stageReqBody_kinds h with hk | hk
      · simp [Event.kind] at hk
      · simp [Event.kind, replyKinds] at hk
    · rcases h with h | h | ⟨e4, fo, hD, h⟩
      · have hk := @modLoop_kinds (fun a => a.streamRequestModifier)
          Event.streamReqMod EKind.streamReqMod (fun _ => rfl) addons 0 fb.1 fb.2 _ h
        simp [Event.kind] at hk
      · rcases stageSend_mem h with hk | hk
        · cases hk
        · injection hk with h1 h2
          subst h2
          exact h1
      · rcases h with h | ⟨e5, f5, hE, h⟩
        · rcases stageRespHeaders_kinds h with hk | hk
          · simp [Event.kind] at hk
          · simp [Event.kind, replyKinds] at hk
        · rcases h with h | ⟨e6, fb2, hF, h⟩
          · rcases stageRespBody_kinds h with hk | hk
            · simp [Event.kind] at hk
            · simp [Event.kind, replyKinds] at hk
          · rcases h with h | h
            · have hk := @modLoop_kinds (fun a => a.streamResponseModifier)
                Event.streamRespMod EKind.streamRespMod (fun _ => rfl) addons 0 fb2.1 fb2.2 _ h
              simp [Event.kind] at hk
            · have hk := replyOpt_kinds _ _ _ h
              simp [Event.kind, replyKinds] at hk

/-- C8 witness: a concrete run whose dial event carries `false`
(keep-alive client), matching the selection formula. -/
theorem c8_separate_client_selection_witness :
    (false : Bool) = (({ newFlow creq with stream := true }).useSeparateClient ||
      (creq.url.host != ({ newFlow creq with stream := true }).request.url.host) ||
      (creq.url.scheme != ({ newFlow creq with stream := true }).request.url.scheme)) :=
  c8_separate_client_selection 2 [noopAddon] creq env1 false
    { newFlow creq with stream := true } (by decide)

/-- C10: in the CONNECT handler, a response set by an addon during the
`Requestheaders` hooks does not short-circuit the tunnel: the handler
still dials, writes `HTTP/1.1 200 Connection Established` to the
client, and overwrites `flow.Response` with a synthetic status-200
response before the first `Responseheaders` hook fires. -/
theorem c10_connect_no_short_circuit (threshold : Nat) (addons : List Addon)
    (req : Request) (env : Env) (cenv : ConnectEnv) (e1 : List Event) (f1 : Flow)
    (hm : req.method = "CONNECT")
    (hd : cenv.dialErr = false) (hh : cenv.hijackErr = false)
    (hw : cenv.writeEstablishedErr = false)
    (hL1 : hookLoop (fun a => a.requestheaders) Event.reqHeadersHook
      (fun _ => false) addons 0 (newFlow req) = (e1, LoopRes.done f1)) :
    Event.dialConnect cenv.intercept ∈ (serveHTTP threshold addons req env cenv).1 ∧
    Event.writeString establishedLine ∈ (serveHTTP threshold addons req env cenv).1 ∧
    (∀ a rest, addons = a :: rest →
      Event.respHeadersHook 0 { f1 with response := some connectOKResponse } ∈
        (serveHTTP threshold addons req env cenv).1) := by
  have hserve : (serveHTTP threshold addons req env cenv).1 =
      (handleConnect addons req cenv).1 := by
    simp only [serveHTTP, if_pos hm]
  rcases hL2 : hookLoop (fun a => a.responseheaders) Event.respHeadersHook
      (fun _ => false) addons 0 { f1 with response := some connectOKResponse }
      with ⟨e2, r2⟩
  have htr : ∃ tail, (handleConnect addons req cenv).1 =
      ((e1 ++ [Event.dialConnect cenv.intercept]) ++ [Event.writeString establishedLine]) ++
        (e2 ++ tail) := by
    cases r2 with
    | panicked =>
      exact ⟨[Event.finishFlow], by
        simp only [handleConnect, hL1, hd, hh, hw, Bool.false_eq_true, if_false, hL2,
          List.append_assoc]⟩
    | stopped f2' =>
      exact ⟨[Event.finishFlow], by
        simp only [handleConnect, hL1, hd, hh, hw, Bool.false_eq_true, if_false, hL2,
          List.append_assoc]⟩
    | done f3 =>
      rcases hL3 : hookLoop (fun a => a.response) Event.responseHook
          (fun _ => false) addons 0 f3 with ⟨e3, r3⟩
      exact ⟨[Event.transfer] ++ (e3 ++ [Event.finishFlow]), by
        cases r3 <;>
          simp only [handleConnect, hL1, hd, hh, hw, Bool.false_eq_true, if_false, hL2,
            hL3, List.append_assoc]⟩
  obtain ⟨tail, htail⟩ := htr
  rw [hserve, htail]
  refine ⟨by simp, by simp, ?_⟩
  intro a rest ha
  subst ha
  obtain ⟨t, ht⟩ := hookLoop_cons_head (fun x => x.responseheaders) Event.respHeadersHook
    (fun _ => false) a rest 0 { f1 with response := some connectOKResponse }
  rw [hL2] at ht
  have ht2 : e2 =
      Event.respHeadersHook 0 { f1 with response := some connectOKResponse } :: t := ht
  have hmem : Event.respHeadersHook 0 { f1 with response := some connectOKResponse } ∈ e2 := by
    rw [ht2]
    exact List.mem_cons_self _ _
  exact List.mem_append.mpr (Or.inr (List.mem_append.mpr (Or.inl hmem)))

/-- C10 witness: a concrete addon that sets a 418 response during
`Requestheaders` of a CONNECT request — the tunnel proceeds anyway and
`Responseheaders` sees the synthetic 200. -/
theorem c10_connect_no_short_circuit_witness :
    Event.dialConnect true ∈ (serveHTTP 5 [scAddon] screq env1 cenv0).1 ∧
    Event.writeString establishedLine ∈ (serveHTTP 5 [scAddon] screq env1 cenv0).1 ∧
    Event.respHeadersHook 0
      { { newFlow screq with response := some teapotResponse } with
        response := some connectOKResponse } ∈ (serveHTTP 5 [scAddon] screq env1 cenv0).1 := by
  have h := c10_connect_no_short_circuit 5 [scAddon] screq env1 cenv0
    [Event.reqHeadersHook 0 (newFlow screq)]
    { newFlow screq with response := some teapotResponse }
    rfl rfl rfl rfl rfl
  exact ⟨h.1, h.2.1, h.2.2 scAddon [] rfl⟩

/-- C9 counterexample: an addon that panics in `Requestheaders` while
handling a CONNECT request — contrary to the claim, the panic is not
recovered: it escapes `ServeHTTP`, and no recovery is logged. -/
theorem c9_connect_panic_counterexample :
    (serveHTTP 5 [panicAddon] screq env1 cenv0).2 = Outcome.panicked ∧
      Event.recovered ∉ (serveHTTP 5 [panicAddon] screq env1 cenv0).1 := by
  decide

/-- C9 (amended): an addon panic raised during the non-CONNECT forward
pipeline is recovered per request — the handler returns normally with
a logged recovery and the flow still finalized — but the hooks fired
while handling a CONNECT request run outside the `recover` defer, so a
panic there escapes the handler unrecovered. -/
theorem c9_panic_recovery_scope (threshold : Nat) (addons : List Addon) (req : Request)
    (env : Env) (cenv : ConnectEnv) :
    (req.method ≠ "CONNECT" → ¬(req.url.scheme = "" ∨ req.url.host = "") →
      (forwardPipeline threshold addons req env).2 = true →
      (serveHTTP threshold addons req env cenv).2 = Outcome.normal ∧
      Event.recovered ∈ (serveHTTP threshold addons req env cenv).1 ∧
      Event.finishFlow ∈ (serveHTTP threshold addons req env cenv).1) ∧
    (req.method = "CONNECT" → (handleConnect addons req cenv).2 = true →
      (serveHTTP threshold addons req env cenv).2 = Outcome.panicked ∧
      Event.recovered ∉ (serveHTTP threshold addons req env cenv).1) := by
  constructor
  · intro hm hrel hp
    rcases hFP : forwardPipeline threshold addons req env with ⟨tr, p⟩
    rw [hFP] at hp
    simp only at hp
    subst hp
    have hSH : serveHTTP threshold addons req env cenv =
        (tr ++ [Event.finishFlow, Event.recovered], Outcome.normal) := by
      simp [serveHTTP, if_neg hm, if_neg hrel, hFP]
    exact ⟨by rw [hSH], by rw [hSH]; simp, by rw [hSH]; simp⟩
  · intro hm hp
    have hSH1 : (serveHTTP threshold addons req env cenv).1 =
        (handleConnect addons req cenv).1 := by
      simp only [serveHTTP, if_pos hm]
    have hSH2 : (serveHTTP threshold addons req env cenv).2 = Outcome.panicked := by
      simp [serveHTTP, if_pos hm, hp]
    refine ⟨hSH2, ?_⟩
    rw [hSH1]
    intro hmem
    exact handleConnect_no_recovered Event.recovered hmem rfl

/-- C9 witness: the same panicking addon is recovered on a plain
forward request and unrecovered on a CONNECT request. -/
theorem c9_panic_recovery_scope_witness :
    ((serveHTTP 5 [panicAddon] creq env1 cenv0).2 = Outcome.normal ∧
      Event.recovered ∈ (serveHTTP 5 [panicAddon] creq env1 cenv0).1 ∧
      Event.finishFlow ∈ (serveHTTP 5 [panicAddon] creq env1 cenv0).1) ∧
    ((serveHTTP 5 [panicAddon] screq env1 cenv0).2 = Outcome.panicked ∧
      Event.recovered ∉ (serveHTTP 5 [panicAddon] screq env1 cenv0).1) :=
  ⟨(c9_panic_recovery_scope 5 [panicAddon] creq env1 cenv0).1 (by decide) (by decide) rfl,
    (c9_panic_recovery_scope 5 [panicAddon] screq env1 cenv0).2 rfl rfl⟩

/-- The request-direction gate: `Request` hooks fire during the
request-body stage exactly when the flow is not yet streaming, the
body read succeeds, the body is below the threshold, and at least one
addon is registered. -/
theorem stageReqBody_gate {threshold : Nat} {addons : List Addon} {env : Env} {f1 : Flow} :
    kindAny EKind.requestHook ((stageReqBody threshold addons env f1).events) = true ↔
      (f1.stream = false ∧ env.reqBodyReadErr = false ∧
        env.reqBodyContent.length < threshold ∧ addons ≠ []) := by
  constructor
  · intro h
    rw [kindAny, List.any_eq_true] at h
    obtain ⟨e, he, hk⟩ := h
    rw [beq_iff_eq] at hk
    unfold stageReqBody at he
    split at he
    · simp [PipeRes.events] at he
    · rename_i hs
      split at he
      · simp only [PipeRes.events, List.mem_singleton] at he
        subst he
        simp [Event.kind] at hk
      · simp [PipeRes.events] at he
      · rename_i buf hr
        unfold readerToBuffer at hr
        by_cases hre : env.reqBodyReadErr = true
        · rw [if_pos hre] at hr
          cases hr
        · by_cases hlen : threshold ≤ env.reqBodyContent.length
          · rw [if_neg hre, if_pos hlen] at hr
            simp at hr
          · refine ⟨by simpa using hs, by simpa using hre, Nat.lt_of_not_le hlen, ?_⟩
            intro hnil
            subst hnil
            split at he
            · rename_i levs hL
              simp only [hookLoop] at hL
              injection hL with hl1 hl2
              rw [← hl1] at he
              simp [PipeRes.events] at he
            · rename_i levs f hL
              simp only [hookLoop] at hL
              injection hL with hl1 hl2
              cases hl2
            · rename_i levs f3 hL
              simp only [hookLoop] at hL
              injection hL with hl1 hl2
              rw [← hl1] at he
              simp [PipeRes.events] at he
  · rintro ⟨h1, h2, h3, h4⟩
    rcases addons with _ | ⟨a, rest⟩
    · exact absurd rfl h4
    obtain ⟨t, ht⟩ := hookLoop_cons_head (fun x => x.request) Event.requestHook
      (fun f => f.response.isSome) a rest 0 (withReqBody f1 env.reqBodyContent)
    unfold stageReqBody
    rw [h1]
    simp only [Bool.false_eq_true, if_false]
    have hrb : readerToBuffer env.reqBodyContent threshold env.reqBodyReadErr =
        Except.ok (some env.reqBodyContent) := by
      unfold readerToBuffer
      rw [if_neg (by simp [h2]), if_neg (Nat.not_le.mpr h3)]
    rcases hL : hookLoop (fun x => x.request) Event.requestHook
        (fun f => f.response.isSome) (a :: rest) 0 (withReqBody f1 env.reqBodyContent)
        with ⟨levs, r⟩
    rw [hL] at ht
    have ht2 : levs = Event.requestHook 0 (withReqBody f1 env.reqBodyContent) :: t := ht
    rw [kindAny, List.any_eq_true]
    refine ⟨Event.requestHook 0 (withReqBody f1 env.reqBodyContent), ?_, by simp [Event.kind]⟩
    cases r with
    | panicked =>
      simp only [hrb, hL, PipeRes.events]
      rw [ht2]
      exact List.mem_cons_self _ _
    | stopped f =>
      simp only [hrb, hL, PipeRes.events]
      exact List.mem_append.mpr (Or.inl (by rw [ht2]; exact List.mem_cons_self _ _))
    | done f3 =>
      simp only [hrb, hL, PipeRes.events]
      rw [ht2]
      exact List.mem_cons_self _ _

/-- The request-body stage's events are part of the full forward
trace. -/
theorem stageB_events_in_trace {threshold : Nat} {addons : List Addon} {req : Request}
    {env : Env} {e1 : List Event} {f1 : Flow}
    (hA : stageReqHeaders addons (newFlow req) = PipeRes.next e1 f1) :
    ∀ e ∈ (stageReqBody threshold addons env f1).events,
      e ∈ (forwardPipeline threshold addons req env).1 := by
  intro e he
  rcases hB : stageReqBody threshold addons env f1 with ⟨bevs, bp⟩ | ⟨e2, fb⟩
  · rw [hB] at he
    have hval : (forwardPipeline threshold addons req env).1 = e1 ++ bevs := by
      simp only [forwardPipeline, hA, hB]
    rw [hval]
    exact List.mem_append.mpr (Or.inr he)
  · rw [hB] at he
    rcases hD : stageSend req.url.scheme req.url.host env
        (modLoop (fun a => a.streamRequestModifier) Event.streamReqMod addons 0
          fb.1 fb.2).2.1 with ⟨devs, dp⟩ | ⟨e4, fo⟩
    · have hval : (forwardPipeline threshold addons req env).1 =
          e1 ++ (e2 ++
            ((modLoop (fun a => a.streamRequestModifier) Event.streamReqMod addons 0
              fb.1 fb.2).1 ++ devs)) := by
        simp only [forwardPipeline, hA, hB, hD, List.append_assoc]
      rw [hval]
      exact List.mem_append.mpr (Or.inr (List.mem_append.mpr (Or.inl he)))
    · rcases hE : stageRespHeaders addons fo.1 with ⟨eevs, ep⟩ | ⟨e5, f5⟩
      · have hval : (forwardPipeline threshold addons req env).1 =
            e1 ++ (e2 ++
              ((modLoop (fun a => a.streamRequestModifier) Event.streamReqMod addons 0
                fb.1 fb.2).1 ++ (e4 ++ eevs))) := by
          simp only [forwardPipeline, hA, hB, hD, hE, List.append_assoc]
        rw [hval]
        exact List.mem_append.mpr (Or.inr (List.mem_append.mpr (Or.inl he)))
      · rcases hF : stageRespBody threshold addons env fo.2 f5
            with ⟨fevs, fp⟩ | ⟨e6, fb2⟩
        · have hval : (forwardPipeline threshold addons req env).1 =
              e1 ++ (e2 ++
                ((modLoop (fun a => a.streamRequestModifier) Event.streamReqMod addons 0
                  fb.1 fb.2).1 ++ (e4 ++ (e5 ++ fevs)))) := by
            simp only [forwardPipeline, hA, hB, hD, hE, hF, List.append_assoc]
          rw [hval]
          exact List.mem_append.mpr (Or.inr (List.mem_append.mpr (Or.inl he)))
        · have hval : (forwardPipeline threshold addons req env).1 =
              e1 ++ (e2 ++
                ((modLoop (fun a => a.streamRequestModifier) Event.streamReqMod addons 0
                  fb.1 fb.2).1 ++ (e4 ++ (e5 ++ (e6 ++
                  ((modLoop (fun a => a.streamResponseModifier) Event.streamRespMod addons 0
                    fb2.1 fb2.2).1 ++
                    replyOpt
                      ((modLoop (fun a => a.streamResponseModifier) Event.streamRespMod
                        addons 0 fb2.1 fb2.2).2.1).response
                      ((modLoop (fun a => a.streamResponseModifier) Event.streamRespMod
                        addons 0 fb2.1 fb2.2).2.2))))))) := by
            simp only [forwardPipeline, hA, hB, hD, hE, hF, List.append_assoc]
          rw [hval]
          exact List.mem_append.mpr (Or.inr (List.mem_append.mpr (Or.inl he)))

/-- C1 counterexample: threshold 2, request body of 2 bytes (streamed),
origin response body empty (well within the threshold): the run
completes and replies status 200, yet no `Response` hook ever fires —
contradicting per-direction streaming decisions. -/
theorem c1_per_direction_counterexample :
    origin1.bodyContent.length < 2 ∧
    Event.writeStatus origin1.statusCode ∈ (serveHTTP 2 [noopAddon] creq env1 cenv0).1 ∧
    kindAny EKind.respHeadersHook (serveHTTP 2 [noopAddon] creq env1 cenv0).1 = true ∧
    kindAny EKind.responseHook (serveHTTP 2 [noopAddon] creq env1 cenv0).1 = false := by
  decide

/-- C1 (amended): streaming is governed by the single sticky
`flow.stream` flag shared by both directions: the `Request` hook fires
iff the flow is not already streaming, the body read succeeds and the
request body is under the threshold (with at least one addon); and
once the request body reaches the threshold, the flow streams for the
rest of its life, so the `Response` hook is skipped even when the
response body is within the threshold. -/
theorem c1_stream_flag_shared (threshold : Nat) (addons : List Addon) (req : Request)
    (env : Env) (e1 : List Event) (f1 : Flow)
    (hA : stageReqHeaders addons (newFlow req) = PipeRes.next e1 f1) :
    (kindAny EKind.requestHook (forwardPipeline threshold addons req env).1 = true ↔
      f1.stream = false ∧ env.reqBodyReadErr = false ∧
        env.reqBodyContent.length < threshold ∧ addons ≠ []) ∧
    ((∀ a ∈ addons, addonStreamMono a) → threshold ≤ env.reqBodyContent.length →
      kindAny EKind.responseHook (forwardPipeline threshold addons req env).1 = false) := by
  constructor
  · constructor
    · intro h
      rw [kindAny, List.any_eq_true] at h
      obtain ⟨e, he, hk⟩ := h
      rw [beq_iff_eq] at hk
      rcases forwardPipeline_mem he with h | ⟨e1', f1', hA', h⟩
      · rw [hA] at h
        have := stageReqHeaders_next_kinds hA e h
        rw [hk] at this
        cases this
      · rw [hA] at hA'
        injection hA' with hA1 hA2
        subst hA1
        subst hA2
        rcases h with h | ⟨e2, fb, hB, h⟩
        · rw [← stageReqBody_gate]
          rw [kindAny, List.any_eq_true]
          exact ⟨e, h, by simp [hk]⟩
        · rcases h with h | h | ⟨e4, fo, hD, h⟩
          · have hkm := @modLoop_kinds (fun a => a.streamRequestModifier)
              Event.streamReqMod EKind.streamReqMod (fun _ => rfl) addons 0 fb.1 fb.2 _ h
            rw [hk] at hkm
            cases hkm
          · rcases stageSend_kinds h with hkm | hkm
            · rw [hk] at hkm
              cases hkm
            · rw [hk] at hkm
              simp [replyKinds] at hkm
          · rcases h with h | ⟨e5, f5, hE, h⟩
            · rcases stageRespHeaders_kinds h with hkm | hkm
              · rw [hk] at hkm
                cases hkm
              · rw [hk] at hkm
                simp [replyKinds] at hkm
            · rcases h with h | ⟨e6, fb2, hF, h⟩
              · rcases stageRespBody_kinds h with hkm | hkm
                · rw [hk] at hkm
                  cases hkm
                · rw [hk] at hkm
                  simp [replyKinds] at hkm
              · rcases h with h | h
                · have hkm := @modLoop_kinds (fun a => a.streamResponseModifier)
                    Event.streamRespMod EKind.streamRespMod (fun _ => rfl) addons 0 fb2.1 fb2.2 _ h
                  rw [hk] at hkm
                  cases hkm
                · have hkm := replyOpt_kinds _ _ _ h
                  rw [hk] at hkm
                  simp [replyKinds] at hkm
    · intro hcond
      have hg := stageReqBody_gate.mpr hcond
      rw [kindAny, List.any_eq_true] at hg
      obtain ⟨e, he, hk⟩ := hg
      rw [kindAny, List.any_eq_true]
      exact ⟨e, stageB_events_in_trace hA e he, hk⟩
  · intro hmono hlen
    obtain ⟨hm1, hm2, hm3, hm4, hm5, hm6⟩ := addonStreamMono_parts hmono
    apply kindAny_eq_false
    intro e he hk
    rcases forwardPipeline_mem he with h | ⟨e1', f1', hA', h⟩
    · rw [hA] at h
      have := stageReqHeaders_next_kinds hA e h
      rw [hk] at this
      cases this
    · rw [hA] at hA'
      injection hA' with hA1 hA2
      subst hA1
      subst hA2
      rcases h with h | ⟨e2, fb, hB, h⟩
      · rcases stageReqBody_kinds h with hkm | hkm
        · rw [hk] at hkm
          cases hkm
        · rw [hk] at hkm
          simp [replyKinds] at hkm
      · rcases h with h | h | ⟨e4, fo, hD, h⟩
        · have hkm := @modLoop_kinds (fun a => a.streamRequestModifier)
            Event.streamReqMod EKind.streamReqMod (fun _ => rfl) addons 0 fb.1 fb.2 _ h
          rw [hk] at hkm
          cases hkm
        · rcases stageSend_kinds h with hkm | hkm
          · rw [hk] at hkm
            cases hkm
          · rw [hk] at hkm
            simp [replyKinds] at hkm
        · rcases h with h | ⟨e5, f5, hE, h⟩
          · rcases stageRespHeaders_kinds h with hkm | hkm
            · rw [hk] at hkm
              cases hkm
            · rw [hk] at hkm
              simp [replyKinds] at hkm
          · -- the flow is streaming at the response-body stage
            have hfb : fb.1.stream = true :=
              stageReqBody_next_stream_true hB (Or.inr hlen)
            have hmod : ((modLoop (fun a => a.streamRequestModifier) Event.streamReqMod
                addons 0 fb.1 fb.2).2.1).stream = true := by
              have hle := @modLoop_stream_le (fun a => a.streamRequestModifier)
                Event.streamReqMod addons hm5 0 fb.1 fb.2
              rw [hfb] at hle
              exact le_antisymm (Bool.le_true _) hle
            have hfo : fo.1.stream = true := by
              rw [(stageSend_span_next hD).2, hmod]
            have hf5 : f5.stream = true := by
              have hle := (stageRespHeaders_span_next hm3 hE).2.2
              rw [hfo] at hle
              exact le_antisymm (Bool.le_true _) hle
            rcases h with h | ⟨e6, fb2, hF, h⟩
            · rw [stageRespBody_stream_eq hf5] at h
              simp [PipeRes.events] at h
            · rw [stageRespBody_stream_eq hf5] at hF
              injection hF with hF1 hF2
              subst hF1
              rcases h with h | h
              · have hkm := @modLoop_kinds (fun a => a.streamResponseModifier)
                  Event.streamRespMod EKind.streamRespMod (fun _ => rfl) addons 0 fb2.1 fb2.2 _ h
                rw [hk] at hkm
                cases hkm
              · have hkm := replyOpt_kinds _ _ _ h
                rw [hk] at hkm
                simp [replyKinds] at hkm

theorem noopAddon_mono : addonStreamMono noopAddon := by
  refine ⟨?_, ?_, ?_, ?_, ?_, ?_⟩
  · intro f f' h
    injection h with h1
    subst h1
    exact le_rfl
  · intro f f' h
    injection h with h1
    subst h1
    exact le_rfl
  · intro f f' h
    injection h with h1
    subst h1
    exact le_rfl
  · intro f f' h
    injection h with h1
    subst h1
    exact le_rfl
  · intro f b
    exact le_rfl
  · intro f b
    exact le_rfl

/-- C1 witness: a buffered run fires `Request`; a request-body
overflow suppresses `Response` even for an empty response body. -/
theorem c1_stream_flag_shared_witness :
    kindAny EKind.requestHook (forwardPipeline 5 [noopAddon] creq env2).1 = true ∧
    kindAny EKind.responseHook (forwardPipeline 2 [noopAddon] creq env1).1 = false :=
  ⟨(c1_stream_flag_shared 5 [noopAddon] creq env2 [Event.reqHeadersHook 0 (newFlow creq)]
      (newFlow creq) rfl).1.mpr ⟨rfl, rfl, by decide, by simp⟩,
    (c1_stream_flag_shared 2 [noopAddon] creq env1 [Event.reqHeadersHook 0 (newFlow creq)]
      (newFlow creq) rfl).2
      (fun a ha => by simp only [List.mem_singleton] at ha; subst ha; exact noopAddon_mono)
      (by decide)⟩

/-- C4: `flow.stream` is sticky — as long as no addon itself clears
the flag, every operation of the pipeline only ever turns it on: along
any `ServeHTTP` trace the flow snapshots' `stream` flags are monotone
(once `true`, `true` in every later snapshot until the flow ends). -/
theorem c4_stream_sticky (threshold : Nat) (addons : List Addon) (req : Request)
    (env : Env) (cenv : ConnectEnv) (hm : ∀ a ∈ addons, addonStreamMono a) :
    List.Pairwise (fun x y : Bool => x ≤ y)
      (streamSnaps (serveHTTP threshold addons req env cenv).1) := by
  by_cases hc : req.method = "CONNECT"
  · have h1 : (serveHTTP threshold addons req env cenv).1 =
        (handleConnect addons req cenv).1 := by
      simp only [serveHTTP, if_pos hc]
    rw [h1]
    exact (handleConnect_span hm).1
  · by_cases hrel : req.url.scheme = "" ∨ req.url.host = ""
    · by_cases hn : addons.length = 0
      · have h1 : (serveHTTP threshold addons req env cenv).1 =
            [Event.writeStatus 400, Event.writeString directMsg] := by
          simp only [serveHTTP, if_neg hc, if_pos hrel, if_pos hn]
        rw [h1]
        simp [streamSnaps, Event.snapFlow]
      · have h1 : (serveHTTP threshold addons req env cenv).1 = (accessLoop addons 0).1 := by
          simp only [serveHTTP, if_neg hc, if_pos hrel, if_neg hn]
        rw [h1]
        have hnil : streamSnaps (accessLoop addons 0).1 = [] :=
          streamSnaps_eq_nil (fun e he => by
            have := accessLoop_kinds addons 0 e he
            cases e <;> simp_all [Event.kind, Event.snapFlow])
        rw [hnil]
        exact List.Pairwise.nil
    · rcases hFP : forwardPipeline threshold addons req env with ⟨tr, p⟩
      have hsp := @forwardPipeline_span threshold addons req env hm
      rw [hFP] at hsp
      cases p with
      | false =>
        have h1 : (serveHTTP threshold addons req env cenv).1 =
            tr ++ [Event.finishFlow] := by
          simp [serveHTTP, if_neg hc, if_neg hrel, hFP]
        rw [h1, streamSnaps_append]
        have h2 : streamSnaps [Event.finishFlow] = [] := rfl
        rw [h2, List.append_nil]
        exact hsp.1
      | true =>
        have h1 : (serveHTTP threshold addons req env cenv).1 =
            tr ++ [Event.finishFlow, Event.recovered] := by
          simp [serveHTTP, if_neg hc, if_neg hrel, hFP]
        rw [h1, streamSnaps_append]
        have h2 : streamSnaps [Event.finishFlow, Event.recovered] = [] := rfl
        rw [h2, List.append_nil]
        exact hsp.1

/-- C4 witness: a concrete run (request body overflowing the
threshold) whose snapshots are monotone. -/
theorem c4_stream_sticky_witness :
    List.Pairwise (fun x y : Bool => x ≤ y)
      (streamSnaps (serveHTTP 2 [noopAddon] creq env1 cenv0).1) :=
  c4_stream_sticky 2 [noopAddon] creq env1 cenv0
    (fun a ha => by simp only [List.mem_singleton] at ha; subst ha; exact noopAddon_mono)

end Mitm
